import Mathlib

/-!
Shallow embedding of the B2B marketing attribution engine
(`backend/app/services/b2b_attribution_engine.py`) and of the service facade
(`backend/app/services/attribution_service.py`).

Modelling conventions:
* Python `float` arithmetic is modelled exactly over `ℚ`; decimal literals such
  as `0.3` become the rationals they denote (`3/10`).  The spec's `1e-9`
  tolerances are subsumed by exact equality.
* `math.exp(-days / half_life)` is transcendental, so the time-decay kernel is
  a parameter `expw : ℤ → ℚ → ℚ` of the functions that use it; every theorem
  assumes only its positivity (`0 < expw d h`), which holds for the real
  exponential.
* `datetime` values are modelled at day resolution by `ℤ`, since the code only
  ever takes `(a - b).days` of them.
* Python `dict`s are association lists in insertion order (`AttrMap`);
  `d[k] = v` keeps the position of an existing key and appends a fresh one,
  exactly like CPython dicts.
* Raising an exception is modelled by `Except.error`; functions that cannot
  raise stay pure.
-/

namespace B2B

/-- B2B touchpoint types (`TouchpointType` enum). -/
inductive TouchpointType where
  | content_download
  | webinar_attendance
  | demo_request
  | trade_show
  | sales_call
  | email_engagement
  | website_visit
  | social_engagement
  | direct_mail
  | referral
deriving DecidableEq, Repr

/-- B2B sales funnel stages (`B2BStageType` enum). -/
inductive B2BStageType where
  | awareness
  | interest
  | consideration
  | intent
  | evaluation
  | purchase
deriving DecidableEq, Repr

/-- `LeadData` dataclass; `created_date` is a day index. -/
structure LeadData where
  lead_id : String
  account_id : String
  lead_score : ℤ
  demographic_score : ℤ
  behavioral_score : ℤ
  firmographic_score : ℤ
  created_date : ℤ
  stage : B2BStageType
  source : String
  lead_quality_tier : String
deriving DecidableEq, Repr

/-- `OpportunityData` dataclass; dates are day indices. -/
structure OpportunityData where
  opportunity_id : String
  account_id : String
  lead_ids : List String
  stage : String
  probability : ℚ
  amount : ℚ
  created_date : ℤ
  close_date : Option ℤ
  sales_cycle_days : ℤ
  deal_size_tier : String
  decision_makers_count : ℤ
  influencers_count : ℤ
deriving DecidableEq, Repr

/-- `TouchpointData` dataclass; `timestamp` is a day index. -/
structure TouchpointData where
  touchpoint_id : String
  lead_id : String
  account_id : String
  timestamp : ℤ
  touchpoint_type : TouchpointType
  channel : String
  campaign_id : Option String
  content_id : Option String
  engagement_score : ℚ
  stage_influence : B2BStageType
  cost : ℚ
  is_sales_touch : Bool
  is_marketing_touch : Bool
  sales_rep_id : Option String
deriving DecidableEq, Repr

/-- `self.touchpoint_type_weights` table; the dictionary covers every
constructor, so the `dict.get(…, 1.0)` default never fires and the table is a
total function. -/
def touchpoint_type_weights : TouchpointType → ℚ
  | .demo_request => 3/2
  | .sales_call => 7/5
  | .webinar_attendance => 6/5
  | .content_download => 11/10
  | .trade_show => 13/10
  | .email_engagement => 4/5
  | .website_visit => 3/5
  | .social_engagement => 7/10
  | .direct_mail => 9/10
  | .referral => 8/5

/-- `self.stage_progression_weights` table (total over the enum). -/
def stage_progression_weights : B2BStageType → ℚ
  | .awareness => 4/5
  | .interest => 1
  | .consideration => 6/5
  | .intent => 7/5
  | .evaluation => 3/2
  | .purchase => 13/10

/-- `self.lead_quality_multipliers.get(tier, 1.0)`. -/
def lead_quality_multipliers (tier : String) : ℚ :=
  if tier = "A" then 3/2
  else if tier = "B" then 6/5
  else if tier = "C" then 1
  else if tier = "D" then 7/10
  else 1

/-- Python's `max` on two rationals, written with an explicit `if` so that it
evaluates by kernel reduction. -/
def pymax (a b : ℚ) : ℚ := if a ≤ b then b else a

/-- Python's `min` on two rationals. -/
def pymin (a b : ℚ) : ℚ := if a ≤ b then a else b

/-- Python's `abs` on a rational. -/
def pyabs (a : ℚ) : ℚ := if a < 0 then -a else a

/-- Python's `max` on two integers. -/
def pymaxI (a b : ℤ) : ℤ := if a ≤ b then b else a

theorem pymax_eq_max (a b : ℚ) : pymax a b = max a b := (max_def a b).symm

theorem pymin_eq_min (a b : ℚ) : pymin a b = min a b := (min_def a b).symm

theorem pyabs_eq_abs (a : ℚ) : pyabs a = |a| := by
  rcases lt_or_le a 0 with h | h
  · rw [pyabs, if_pos h, abs_of_neg h]
  · rw [pyabs, if_neg (not_lt.2 h), abs_of_nonneg h]

theorem pymaxI_eq_max (a b : ℤ) : pymaxI a b = max a b := (max_def a b).symm

/-- A Python `dict` mapping touchpoint ids to floats, in insertion order. -/
abbrev AttrMap := List (String × ℚ)

/-- Key membership test of a Python dict. -/
def dmem (d : AttrMap) (k : String) : Bool :=
  d.any (fun p => p.1 = k)

/-- `d.get(k)`: value at a key, if present (first — hence, with the unique
keys `dset` maintains, only — occurrence). -/
def dget (d : AttrMap) (k : String) : Option ℚ :=
  (d.find? (fun p => p.1 = k)).map (fun p => p.2)

/-- `d.get(k, v0)`. -/
def dgetD (d : AttrMap) (k : String) (v0 : ℚ) : ℚ :=
  (dget d k).getD v0

/-- `d[k] = v`: update in place if the key exists, else append.  (The dicts
the engine builds never hold duplicate keys, so replacing the first
occurrence is CPython's behaviour.) -/
def dset : AttrMap → String → ℚ → AttrMap
  | [], k, v => [(k, v)]
  | p :: d, k, v => if p.1 = k then (k, v) :: d else p :: dset d k v

end B2B

namespace B2B

/-- Per-opportunity body of `calculate_b2b_time_decay` (one iteration of its
`for opportunity in opportunity_data` loop, threading the output dict).
`expw days half_life` models `math.exp(-days / half_life)`.  The default
argument `avg_sales_cycle_days = 180` of the Python function is inlined, as
every caller relies on it. -/
def timeDecayHalfLife (o : OpportunityData) : ℚ :=
  pymax (((if o.sales_cycle_days = 0 then 180 else o.sales_cycle_days : ℤ) : ℚ) * (3/10)) 14

/-- `conversion_date = opportunity.close_date or opportunity.created_date`
(only `None` is falsy for datetimes). -/
def conversionDate (o : OpportunityData) : ℤ :=
  o.close_date.getD o.created_date

/-- The un-normalized weight the time-decay loop assigns a touchpoint:
`exp(-max(0, days) / half_life) * touchpoint_type_weights[type]`. -/
def timeDecayWeight (expw : ℤ → ℚ → ℚ) (o : OpportunityData)
    (tp : TouchpointData) : ℚ :=
  expw (pymaxI 0 (conversionDate o - tp.timestamp)) (timeDecayHalfLife o) *
    touchpoint_type_weights tp.touchpoint_type

/-- The loop shape shared by `calculate_b2b_time_decay` and
`calculate_account_level_attribution`: over the opportunity's touchpoints,
build a `touchpoint_weights` dict and a running `total_weight`; if the total
is positive, write each normalized weight times the amount into the output
dict, else leave it unchanged (the `continue` on an empty touchpoint list
included). -/
def normalizedOppDistribute (W : TouchpointData → ℚ)
    (opp_touchpoints : List TouchpointData) (amount : ℚ) (aw : AttrMap) : AttrMap :=
  if opp_touchpoints.isEmpty then aw
  else
    let tw := opp_touchpoints.foldl
      (fun (s : AttrMap × ℚ) tp => (dset s.1 tp.touchpoint_id (W tp), s.2 + W tp))
      ([], 0)
    if 0 < tw.2 then
      tw.1.foldl (fun a p => dset a p.1 (p.2 / tw.2 * amount)) aw
    else aw

/-- Per-opportunity body of `calculate_b2b_time_decay` (one iteration of its
`for opportunity in opportunity_data` loop, threading the output dict).
`expw days half_life` models `math.exp(-days / half_life)`.  The default
argument `avg_sales_cycle_days = 180` of the Python function is inlined, as
every caller relies on it (`cycle_days = opportunity.sales_cycle_days or
avg_sales_cycle_days`, where a zero cycle is falsy). -/
def timeDecayOpp (expw : ℤ → ℚ → ℚ) (touchpoint_data : List TouchpointData)
    (aw : AttrMap) (o : OpportunityData) : AttrMap :=
  normalizedOppDistribute (timeDecayWeight expw o)
    (touchpoint_data.filter (fun tp => tp.account_id = o.account_id)) o.amount aw

/-- `calculate_b2b_time_decay`. -/
def calculate_b2b_time_decay (expw : ℤ → ℚ → ℚ)
    (touchpoint_data : List TouchpointData)
    (opportunity_data : List OpportunityData) : AttrMap :=
  opportunity_data.foldl (timeDecayOpp expw touchpoint_data) []

/-- The lead dict comprehension `{lead.lead_id: lead for lead in lead_data}`
followed by `.get`: the last lead with a given id wins. -/
def leadLookup (lead_data : List LeadData) (lid : String) : Option LeadData :=
  lead_data.reverse.find? (fun l => l.lead_id = lid)

/-- `calculate_lead_quality_impact`. -/
def calculate_lead_quality_impact (lead_data : List LeadData)
    (touchpoint_data : List TouchpointData) : AttrMap :=
  touchpoint_data.foldl
    (fun aw tp =>
      match leadLookup lead_data tp.lead_id with
      | none => aw
      | some lead =>
        let base_weight := tp.engagement_score / 100
        let quality_multiplier := lead_quality_multipliers lead.lead_quality_tier
        let score_multiplier := pymin ((lead.lead_score : ℚ) / 100) 2
        let demo_bonus := 1 + (lead.demographic_score : ℚ) / 1000
        let firmo_bonus := 1 + (lead.firmographic_score : ℚ) / 1000
        dset aw tp.touchpoint_id
          (base_weight * quality_multiplier * score_multiplier * demo_bonus * firmo_bonus))
    []

/-- `_calculate_account_complexity`. -/
def _calculate_account_complexity (o : OpportunityData) : ℚ :=
  let c : ℚ := 1
  let c := if o.deal_size_tier = "enterprise" then c + 3/10
           else if o.deal_size_tier = "mid-market" then c + 3/20 else c
  let total_stakeholders := o.decision_makers_count + o.influencers_count
  let c := if 5 < total_stakeholders then c + 1/5
           else if 3 < total_stakeholders then c + 1/10 else c
  if 365 < o.sales_cycle_days then c + 1/4
  else if 180 < o.sales_cycle_days then c + 3/20 else c

/-- `_get_deal_size_multiplier`. -/
def _get_deal_size_multiplier (deal_size_tier : String) : ℚ :=
  if deal_size_tier = "enterprise" then 7/5
  else if deal_size_tier = "mid-market" then 6/5
  else if deal_size_tier = "smb" then 1
  else 1

/-- The un-normalized weight the account-based loop assigns a touchpoint:
type weight × engagement share, the 1.3 sales bump, and the three
account-level multipliers. -/
def accountWeight (o : OpportunityData) (tp : TouchpointData) : ℚ :=
  let base_weight :=
    touchpoint_type_weights tp.touchpoint_type * (tp.engagement_score / 100)
  let base_weight :=
    if tp.is_sales_touch then base_weight * (13/10)
    else if tp.is_marketing_touch then base_weight * 1
    else base_weight
  base_weight * _calculate_account_complexity o *
    (1 + ((o.decision_makers_count + o.influencers_count : ℤ) : ℚ) * (1/10)) *
    _get_deal_size_multiplier o.deal_size_tier

/-- Per-opportunity body of `calculate_account_level_attribution`.  The
Python code pre-groups touchpoints into `account_touchpoints`, which
preserves list order, so `account_touchpoints.get(account_id, [])` is
exactly the order-preserving filter below. -/
def accountOpp (touchpoint_data : List TouchpointData)
    (aw : AttrMap) (o : OpportunityData) : AttrMap :=
  normalizedOppDistribute (accountWeight o)
    (touchpoint_data.filter (fun tp => tp.account_id = o.account_id)) o.amount aw

/-- `calculate_account_level_attribution`. -/
def calculate_account_level_attribution (opportunity_data : List OpportunityData)
    (touchpoint_data : List TouchpointData) : AttrMap :=
  opportunity_data.foldl (accountOpp touchpoint_data) []

/-- `calculate_stage_progression_attribution`. -/
def calculate_stage_progression_attribution
    (touchpoint_data : List TouchpointData) : AttrMap :=
  touchpoint_data.foldl
    (fun aw tp =>
      dset aw tp.touchpoint_id
        (tp.engagement_score / 100 * stage_progression_weights tp.stage_influence
          * touchpoint_type_weights tp.touchpoint_type))
    []

/-- `_get_expected_cycle_days`. -/
def _get_expected_cycle_days (deal_size_tier : String) : ℤ :=
  if deal_size_tier = "enterprise" then 270
  else if deal_size_tier = "mid-market" then 150
  else if deal_size_tier = "smb" then 60
  else 180

/-- The `velocity_bonus` of `calculate_pipeline_velocity_impact`: faster
deals than the tier's expected cycle get a bonus, slower ones a floored
penalty. -/
def velocityBonus (o : OpportunityData) : ℚ :=
  let actual_cycle := o.sales_cycle_days
  let expected_cycle := _get_expected_cycle_days o.deal_size_tier
  if actual_cycle < expected_cycle then
    1 + ((expected_cycle : ℚ) - (actual_cycle : ℚ)) / (expected_cycle : ℚ) * (1/2)
  else
    pymax (1/2) (1 - ((actual_cycle : ℚ) - (expected_cycle : ℚ)) / (expected_cycle : ℚ) * (3/10))

/-- The value the velocity loop assigns a touchpoint for one opportunity:
`(engagement_score / 100) * velocity_impact`, where demos and sales calls
get a 1.2 factor on the bonus. -/
def velocityContribution (o : OpportunityData) (tp : TouchpointData) : ℚ :=
  tp.engagement_score / 100 *
    (if tp.touchpoint_type = .demo_request ∨ tp.touchpoint_type = .sales_call then
      velocityBonus o * (6/5)
    else velocityBonus o)

/-- Per-opportunity body of `calculate_pipeline_velocity_impact`. -/
def velocityOpp (touchpoint_data : List TouchpointData)
    (aw : AttrMap) (o : OpportunityData) : AttrMap :=
  let opp_touchpoints := touchpoint_data.filter (fun tp => tp.account_id = o.account_id)
  if opp_touchpoints.isEmpty then aw
  else
    opp_touchpoints.foldl
      (fun a tp => dset a tp.touchpoint_id (velocityContribution o tp))
      aw

/-- `calculate_pipeline_velocity_impact`. -/
def calculate_pipeline_velocity_impact (opportunity_data : List OpportunityData)
    (touchpoint_data : List TouchpointData) : AttrMap :=
  opportunity_data.foldl (velocityOpp touchpoint_data) []

end B2B

namespace B2B

/-- A combine-weights dictionary with the five keys the code indexes. -/
structure CombineWeights where
  time : ℚ
  quality : ℚ
  account : ℚ
  stage : ℚ
  velocity : ℚ
deriving DecidableEq, Repr

/-- The default weight dictionary of `combine_b2b_attribution_factors`. -/
def defaultCombineWeights : CombineWeights :=
  ⟨1/4, 1/4, 1/4, 3/20, 1/10⟩

/-- The `all_touchpoint_ids` set of `combine_b2b_attribution_factors`,
enumerated in first-appearance order over the five maps.  CPython iterates a
`set` of strings in a hash-dependent order; every theorem below concerns the
key-value content of the combined dict, which is independent of this choice
(the one order-sensitive consumer, the summary sort, is analysed against an
arbitrary association list). -/
def unionKeys (ms : List AttrMap) : List String :=
  ((ms.map (fun m => m.map (fun p => p.1))).flatten).dedup

/-- `combine_b2b_attribution_factors`; `none` means the `weights=None`
default. -/
def combine_b2b_attribution_factors (time_weighted quality_weighted account_based
    stage_weighted velocity_impact : AttrMap)
    (weights : Option CombineWeights) : AttrMap :=
  let w := weights.getD defaultCombineWeights
  (unionKeys [time_weighted, quality_weighted, account_based, stage_weighted,
      velocity_impact]).map
    (fun tp_id =>
      (tp_id,
        dgetD time_weighted tp_id 0 * w.time +
        dgetD quality_weighted tp_id 0 * w.quality +
        dgetD account_based tp_id 0 * w.account +
        dgetD stage_weighted tp_id 0 * w.stage +
        dgetD velocity_impact tp_id 0 * w.velocity))

/-- Stable insertion into a descending-by-value list: the new element goes in
front of the first strictly smaller value, after any equal ones it precedes in
processing order. -/
def insertValDesc (p : String × ℚ) : AttrMap → AttrMap
  | [] => [p]
  | q :: l => if q.2 ≤ p.2 then p :: q :: l else q :: insertValDesc p l

/-- `sorted(items, key=lambda x: x[1], reverse=True)`: the stable
descending-by-value sort of an association list. -/
def sortValDesc : AttrMap → AttrMap
  | [] => []
  | p :: l => insertValDesc p (sortValDesc l)

/-- An element of the `top_contributing_touchpoints` list. -/
structure TopTouchpoint where
  touchpoint_id : String
  attribution_value : ℚ
  percentage : ℚ
deriving DecidableEq, Repr

/-- The summary dictionary returned by `generate_attribution_summary`. -/
structure AttributionSummary where
  total_attribution_value : ℚ
  touchpoint_count : ℕ
  average_attribution_per_touchpoint : ℚ
  top_contributing_touchpoints : List TopTouchpoint
  top_20_percent : ℚ
  bottom_20_percent : ℚ
deriving DecidableEq, Repr

/-- `dict(pairs)`: rebuild a dict from a pair list (later duplicates win),
as in `dict(sorted_touchpoints[:n])`. -/
def dictOfList (l : List (String × ℚ)) : AttrMap :=
  l.foldl (fun d p => dset d p.1 p.2) []

/-- `generate_attribution_summary`.  Returns `none` for the `{}` the code
gives an empty input; a nonempty input with zero total raises
`ZeroDivisionError` in the percentage comprehension, modelled as
`Except.error`. -/
def generate_attribution_summary (attribution_results : AttrMap) :
    Except String (Option AttributionSummary) :=
  if attribution_results.isEmpty then .ok none
  else
    let total_attribution := (attribution_results.map (fun p => p.2)).sum
    let touchpoint_count := attribution_results.length
    let sorted_touchpoints := sortValDesc attribution_results
    let top_touchpoints := sorted_touchpoints.take 5
    if total_attribution = 0 then .error "ZeroDivisionError"
    else
      .ok (some
        { total_attribution_value := total_attribution
          touchpoint_count := touchpoint_count
          average_attribution_per_touchpoint :=
            if 0 < touchpoint_count then total_attribution / touchpoint_count else 0
          top_contributing_touchpoints :=
            top_touchpoints.map
              (fun p => ⟨p.1, p.2, p.2 / total_attribution * 100⟩)
          top_20_percent :=
            ((dictOfList (sorted_touchpoints.take (max 1 (touchpoint_count / 5)))).map
              (fun p => p.2)).sum
          bottom_20_percent :=
            ((dictOfList (sorted_touchpoints.drop
                (touchpoint_count - max 1 (touchpoint_count / 5)))).map
              (fun p => p.2)).sum })

/-- The five per-touchpoint maps, the combined map and the summary returned by
`b2b_specific_attribution`. -/
structure B2BResults where
  time_weighted_attribution : AttrMap
  quality_weighted_attribution : AttrMap
  account_based_attribution : AttrMap
  stage_progression_attribution : AttrMap
  pipeline_velocity_attribution : AttrMap
  combined_b2b_attribution : AttrMap
  attribution_summary : Option AttributionSummary
deriving DecidableEq, Repr

/-- `b2b_specific_attribution`: runs the five calculators, combines them with
the default weights (it passes no `weights` argument) and attaches the
summary; a `ZeroDivisionError` from the summary propagates. -/
def b2b_specific_attribution (expw : ℤ → ℚ → ℚ) (lead_data : List LeadData)
    (opportunity_data : List OpportunityData)
    (touchpoint_data : List TouchpointData) : Except String B2BResults :=
  let time_weighted := calculate_b2b_time_decay expw touchpoint_data opportunity_data
  let quality_weighted := calculate_lead_quality_impact lead_data touchpoint_data
  let account_based := calculate_account_level_attribution opportunity_data touchpoint_data
  let stage_weighted := calculate_stage_progression_attribution touchpoint_data
  let velocity_impact := calculate_pipeline_velocity_impact opportunity_data touchpoint_data
  let combined_attribution := combine_b2b_attribution_factors time_weighted
    quality_weighted account_based stage_weighted velocity_impact none
  match generate_attribution_summary combined_attribution with
  | .error e => .error e
  | .ok s =>
    .ok ⟨time_weighted, quality_weighted, account_based, stage_weighted,
      velocity_impact, combined_attribution, s⟩

end B2B

namespace B2B

/-- The touchpoint dict comprehension `{tp.touchpoint_id: tp for tp in …}`
followed by `.get`: the last touchpoint with a given id wins. -/
def touchpointLookup (touchpoint_data : List TouchpointData) (tid : String) :
    Option TouchpointData :=
  touchpoint_data.reverse.find? (fun tp => tp.touchpoint_id = tid)

/-- A channel's running metrics before the ROI pass of
`analyze_channel_performance`. -/
structure RawChannel where
  total_attribution : ℚ
  touchpoint_count : ℕ
  total_cost : ℚ
  touchpoint_types : List String
deriving DecidableEq, Repr

/-- `roi` may be the float `inf` (`float('inf')`). -/
inductive Roi where
  | val (q : ℚ)
  | inf
deriving DecidableEq, Repr

/-- A channel's metrics after the ROI pass. -/
structure ChannelMetrics where
  total_attribution : ℚ
  touchpoint_count : ℕ
  total_cost : ℚ
  touchpoint_types : List String
  roi : Roi
  cost_per_attribution : ℚ
deriving DecidableEq, Repr

/-- One accumulation step of the grouping loop: add an attribution value, a
cost and a type string to a channel entry (`.add` on a Python `set` of
strings, modelled as an insertion-ordered duplicate-free list). -/
def addToChannel (m : RawChannel) (v cost : ℚ) (ty : String) : RawChannel :=
  ⟨m.total_attribution + v, m.touchpoint_count + 1, m.total_cost + cost,
    if m.touchpoint_types.contains ty then m.touchpoint_types
    else m.touchpoint_types ++ [ty]⟩

/-- `channel_performance[channel] = …` / increment: dict-update semantics on
the channel dict. -/
def updateChannel : List (String × RawChannel) → String → ℚ → ℚ → String →
    List (String × RawChannel)
  | [], ch, v, cost, ty => [(ch, addToChannel ⟨0, 0, 0, []⟩ v cost ty)]
  | q :: acc, ch, v, cost, ty =>
    if q.1 = ch then (ch, addToChannel q.2 v cost ty) :: acc
    else q :: updateChannel acc ch v cost ty

/-- The string `touchpoint.touchpoint_type.value`. -/
def typeValue : TouchpointType → String
  | .content_download => "content_download"
  | .webinar_attendance => "webinar_attendance"
  | .demo_request => "demo_request"
  | .trade_show => "trade_show"
  | .sales_call => "sales_call"
  | .email_engagement => "email_engagement"
  | .website_visit => "website_visit"
  | .social_engagement => "social_engagement"
  | .direct_mail => "direct_mail"
  | .referral => "referral"

/-- The grouping loop of `analyze_channel_performance`. -/
def channelGroups (attribution_results : AttrMap)
    (touchpoint_data : List TouchpointData) : List (String × RawChannel) :=
  attribution_results.foldl
    (fun acc p =>
      match touchpointLookup touchpoint_data p.1 with
      | none => acc
      | some tp => updateChannel acc tp.channel p.2 tp.cost (typeValue tp.touchpoint_type))
    []

/-- The ROI/efficiency pass on one channel.  When `total_cost > 0` the code
divides by `total_attribution` with no guard, so `total_attribution = 0`
raises `ZeroDivisionError`. -/
def finalizeChannel (m : RawChannel) : Except String ChannelMetrics :=
  if 0 < m.total_cost then
    if m.total_attribution = 0 then .error "ZeroDivisionError"
    else
      .ok ⟨m.total_attribution, m.touchpoint_count, m.total_cost, m.touchpoint_types,
        .val ((m.total_attribution - m.total_cost) / m.total_cost),
        m.total_cost / m.total_attribution⟩
  else
    .ok ⟨m.total_attribution, m.touchpoint_count, m.total_cost, m.touchpoint_types,
      (if 0 < m.total_attribution then .inf else .val 0), 0⟩

/-- `analyze_channel_performance`. -/
def analyze_channel_performance (attribution_results : AttrMap)
    (touchpoint_data : List TouchpointData) :
    Except String (List (String × ChannelMetrics)) :=
  (channelGroups attribution_results touchpoint_data).mapM
    (fun q => (finalizeChannel q.2).map (fun m => (q.1, m)))

/-- `_calculate_alignment_score`. -/
def _calculate_alignment_score (sales_attr marketing_attr joint_attr : ℚ) : ℚ :=
  let total_attr := sales_attr + marketing_attr + joint_attr
  if total_attr = 0 then 0
  else
    let marketing_pct := marketing_attr / total_attr * 100
    let sales_pct := sales_attr / total_attr * 100
    let joint_pct := joint_attr / total_attr * 100
    let total_deviation := pyabs (marketing_pct - 40) + pyabs (sales_pct - 40) + pyabs (joint_pct - 20)
    pymax 0 (100 - total_deviation)

/-- One step of the partition loop of `analyze_sales_marketing_alignment`:
missing touchpoints are skipped, joint touches (both flags) go to the third
bucket, sales-only to the first, marketing-only to the second, flagless
touches are dropped. -/
def alignStep (touchpoint_data : List TouchpointData)
    (s : ℚ × ℚ × ℚ) (p : String × ℚ) : ℚ × ℚ × ℚ :=
  match touchpointLookup touchpoint_data p.1 with
  | none => s
  | some tp =>
    if tp.is_sales_touch ∧ tp.is_marketing_touch then (s.1, s.2.1, s.2.2 + p.2)
    else if tp.is_sales_touch then (s.1 + p.2, s.2.1, s.2.2)
    else if tp.is_marketing_touch then (s.1, s.2.1 + p.2, s.2.2)
    else s

/-- The three flag-partitioned accumulators of
`analyze_sales_marketing_alignment` (sales, marketing, joint). -/
def alignmentTotals (attribution_results : AttrMap)
    (touchpoint_data : List TouchpointData) : ℚ × ℚ × ℚ :=
  attribution_results.foldl (alignStep touchpoint_data) (0, 0, 0)

/-- The result dictionary of `analyze_sales_marketing_alignment`. -/
structure AlignmentResults where
  sales_attribution : ℚ
  marketing_attribution : ℚ
  joint_attribution : ℚ
  sales_percentage : ℚ
  marketing_percentage : ℚ
  joint_percentage : ℚ
  alignment_score : ℚ
deriving DecidableEq, Repr

/-- `analyze_sales_marketing_alignment`. -/
def analyze_sales_marketing_alignment (attribution_results : AttrMap)
    (touchpoint_data : List TouchpointData) : AlignmentResults :=
  let t := alignmentTotals attribution_results touchpoint_data
  let sales_attribution := t.1
  let marketing_attribution := t.2.1
  let joint_attribution := t.2.2
  let total_attribution := sales_attribution + marketing_attribution + joint_attribution
  { sales_attribution := sales_attribution
    marketing_attribution := marketing_attribution
    joint_attribution := joint_attribution
    sales_percentage :=
      if 0 < total_attribution then sales_attribution / total_attribution * 100 else 0
    marketing_percentage :=
      if 0 < total_attribution then marketing_attribution / total_attribution * 100 else 0
    joint_percentage :=
      if 0 < total_attribution then joint_attribution / total_attribution * 100 else 0
    alignment_score :=
      _calculate_alignment_score sales_attribution marketing_attribution joint_attribution }

/-- `_get_alignment_grade` of the service facade. -/
def _get_alignment_grade (score : ℚ) : String :=
  if 90 ≤ score then "A+"
  else if 80 ≤ score then "A"
  else if 70 ≤ score then "B"
  else if 60 ≤ score then "C"
  else if 50 ≤ score then "D"
  else "F"

end B2B

namespace B2B

/-- The `metadata` block assembled by the facade's `calculate_b2b_attribution`
(the wall-clock `analysis_date` is outside the model). -/
structure CalcMetadata where
  leads_analyzed : ℕ
  opportunities_analyzed : ℕ
  touchpoints_analyzed : ℕ
  attribution_weights : Option CombineWeights
deriving DecidableEq, Repr

/-- The `comprehensive_results` document returned by the facade. -/
structure ComprehensiveResults where
  attribution : B2BResults
  channel_performance : List (String × ChannelMetrics)
  sales_marketing_alignment : AlignmentResults
  metadata : CalcMetadata
deriving DecidableEq, Repr

/-- `_store_attribution_results`: the database commit is an environment
outcome `commit`; on failure the code logs, rolls back and re-raises, so the
error propagates to its caller. -/
def _store_attribution_results (commit : Except String Unit) : Except String Unit :=
  match commit with
  | .ok _ => .ok ()
  | .error e => .error e

/-- The facade's `calculate_b2b_attribution`, with the already-loaded records
as inputs (the database loader is an out-of-scope collaborator).  The
`attribution_weights` argument is placed in the metadata block only; the
engine is invoked without it.  Any exception from the engine, the channel
analysis or the result store propagates (`except … raise`). -/
def calculate_b2b_attribution (expw : ℤ → ℚ → ℚ) (commit : Except String Unit)
    (lead_data : List LeadData) (opportunity_data : List OpportunityData)
    (touchpoint_data : List TouchpointData)
    (attribution_weights : Option CombineWeights) :
    Except String ComprehensiveResults :=
  match b2b_specific_attribution expw lead_data opportunity_data touchpoint_data with
  | .error e => .error e
  | .ok attribution_results =>
    match analyze_channel_performance attribution_results.combined_b2b_attribution
        touchpoint_data with
    | .error e => .error e
    | .ok channel_analysis =>
      let alignment_analysis := analyze_sales_marketing_alignment
        attribution_results.combined_b2b_attribution touchpoint_data
      let comprehensive_results : ComprehensiveResults :=
        ⟨attribution_results, channel_analysis, alignment_analysis,
          ⟨lead_data.length, opportunity_data.length, touchpoint_data.length,
            attribution_weights⟩⟩
      match _store_attribution_results commit with
      | .ok _ => .ok comprehensive_results
      | .error e => .error e

/-- Erase the metadata's weight echo, to compare two calculate results on
everything the computation produced. -/
def eraseMetadataWeights (r : ComprehensiveResults) : ComprehensiveResults :=
  ⟨r.attribution, r.channel_performance, r.sales_marketing_alignment,
    ⟨r.metadata.leads_analyzed, r.metadata.opportunities_analyzed,
      r.metadata.touchpoints_analyzed, none⟩⟩

end B2B

namespace B2B

theorem dget_nil (k : String) : dget [] k = none := rfl

theorem dget_cons (p : String × ℚ) (d : AttrMap) (k : String) :
    dget (p :: d) k = if p.1 = k then some p.2 else dget d k := by
  by_cases h : p.1 = k <;> simp [dget, List.find?, h]

theorem dget_dset_self (d : AttrMap) (k : String) (v : ℚ) :
    dget (dset d k v) k = some v := by
  induction d with
  | nil => simp [dset, dget_cons]
  | cons p d ih =>
    by_cases h : p.1 = k
    · simp [dset, h, dget_cons]
    · simp [dset, h, dget_cons, ih]

theorem dget_dset_ne (d : AttrMap) (k k' : String) (v : ℚ) (h : k' ≠ k) :
    dget (dset d k v) k' = dget d k' := by
  have h' : ¬(k = k') := fun hh => h hh.symm
  induction d with
  | nil => simp [dset, dget_cons, h']
  | cons p d ih =>
    by_cases hp : p.1 = k
    · simp [dset, hp, dget_cons, h']
    · simp [dset, hp, dget_cons, ih]

theorem mem_dset (d : AttrMap) (k : String) (v : ℚ) (p : String × ℚ)
    (hp : p ∈ dset d k v) : p ∈ d ∨ p = (k, v) := by
  induction d with
  | nil => simp [dset] at hp; simp [hp]
  | cons q d ih =>
    by_cases hq : q.1 = k
    · simp [dset, hq] at hp
      rcases hp with h | h
      · right; simp [h]
      · left; simp [h]
    · simp [dset, hq] at hp
      rcases hp with h | h
      · left; simp [h]
      · rcases ih h with h1 | h1
        · left; simp [h1]
        · right; exact h1

theorem dset_fresh (d : AttrMap) (k : String) (v : ℚ)
    (h : ∀ p ∈ d, p.1 ≠ k) : dset d k v = d ++ [(k, v)] := by
  induction d with
  | nil => simp [dset]
  | cons p d ih =>
    have hp : p.1 ≠ k := h p (by simp)
    simp only [dset, if_neg hp, List.cons_append, List.cons.injEq, true_and]
    exact ih (fun q hq => h q (by simp [hq]))

end B2B

namespace B2B

/-- All values of a dict are non-negative. -/
def AttrNonneg (d : AttrMap) : Prop := ∀ p ∈ d, 0 ≤ p.2

theorem attrNonneg_dset (d : AttrMap) (k : String) (v : ℚ)
    (hd : AttrNonneg d) (hv : 0 ≤ v) : AttrNonneg (dset d k v) := by
  intro p hp
  rcases mem_dset d k v p hp with h | h
  · exact hd p h
  · simp [h, hv]

theorem dgetD_nonneg (d : AttrMap) (k : String) (hd : AttrNonneg d) :
    0 ≤ dgetD d k 0 := by
  unfold dgetD dget
  cases hfind : d.find? (fun p => p.1 = k) with
  | none => simp
  | some p =>
    simp only [Option.map_some', Option.getD_some]
    exact hd p (List.mem_of_find?_eq_some hfind)

/-- Generic invariant preservation for left folds. -/
theorem foldl_preserve {α β : Type} (P : β → Prop) (f : β → α → β) :
    ∀ (l : List α) (b : β), P b → (∀ b' a, a ∈ l → P b' → P (f b' a)) →
      P (l.foldl f b) := by
  intro l
  induction l with
  | nil => intro b hb _; exact hb
  | cons a l ih =>
    intro b hb hstep
    simp only [List.foldl_cons]
    exact ih (f b a) (hstep b a (by simp) hb)
      (fun b' a' ha' => hstep b' a' (by simp [ha']))

/-- The pair-building fold of `normalizedOppDistribute`, under fresh and
duplicate-free keys, is just `map` and `sum`. -/
theorem foldl_dset_pair_eq (W : TouchpointData → ℚ) :
    ∀ (l : List TouchpointData) (d0 : AttrMap) (t0 : ℚ),
      (l.map (fun tp => tp.touchpoint_id)).Nodup →
      (∀ tp ∈ l, ∀ p ∈ d0, p.1 ≠ tp.touchpoint_id) →
      l.foldl (fun (s : AttrMap × ℚ) tp =>
          (dset s.1 tp.touchpoint_id (W tp), s.2 + W tp)) (d0, t0) =
        (d0 ++ l.map (fun tp => (tp.touchpoint_id, W tp)),
          t0 + (l.map W).sum) := by
  intro l
  induction l with
  | nil => intro d0 t0 _ _; simp
  | cons tp l ih =>
    intro d0 t0 hnodup hfresh
    have hfresh0 : ∀ p ∈ d0, p.1 ≠ tp.touchpoint_id :=
      fun p hp => hfresh tp (by simp) p hp
    have hset : dset d0 tp.touchpoint_id (W tp) = d0 ++ [(tp.touchpoint_id, W tp)] :=
      dset_fresh d0 tp.touchpoint_id (W tp) hfresh0
    simp only [List.foldl_cons, hset]
    have hnodup' : (l.map (fun t => t.touchpoint_id)).Nodup := by
      simp only [List.map_cons, List.nodup_cons] at hnodup
      exact hnodup.2
    have hid : tp.touchpoint_id ∉ l.map (fun t => t.touchpoint_id) := by
      simp only [List.map_cons, List.nodup_cons] at hnodup
      exact hnodup.1
    have hfresh' : ∀ t ∈ l, ∀ p ∈ d0 ++ [(tp.touchpoint_id, W tp)],
        p.1 ≠ t.touchpoint_id := by
      intro t ht p hp
      rcases List.mem_append.1 hp with h | h
      · exact hfresh t (by simp [ht]) p h
      · simp at h
        subst h
        intro hc
        apply hid
        have hc' : tp.touchpoint_id = t.touchpoint_id := hc
        rw [hc']
        exact List.mem_map_of_mem (fun x => x.touchpoint_id) ht
    rw [ih (d0 ++ [(tp.touchpoint_id, W tp)]) (t0 + W tp) hnodup' hfresh']
    simp [List.append_assoc]
    ring

/-- A fold of writes whose keys all avoid `k` leaves `dget · k` unchanged. -/
theorem dget_foldl_pairs_untouched (g : String × ℚ → ℚ) :
    ∀ (tw : AttrMap) (aw : AttrMap) (k : String),
      (∀ p ∈ tw, p.1 ≠ k) →
      dget (tw.foldl (fun a p => dset a p.1 (g p)) aw) k = dget aw k := by
  intro tw
  induction tw with
  | nil => intro aw k _; rfl
  | cons q tw ih =>
    intro aw k h
    simp only [List.foldl_cons]
    rw [ih (dset aw q.1 (g q)) k (fun p hp => h p (by simp [hp]))]
    exact dget_dset_ne aw q.1 k (g q) (fun hc => h q (by simp) hc.symm)

/-- Under duplicate-free keys, a fold of writes assigns each key its own
value. -/
theorem dget_foldl_pairs_mem (g : String × ℚ → ℚ) :
    ∀ (tw : AttrMap) (aw : AttrMap) (k : String) (v : ℚ),
      (tw.map Prod.fst).Nodup → (k, v) ∈ tw →
      dget (tw.foldl (fun a p => dset a p.1 (g p)) aw) k = some (g (k, v)) := by
  intro tw
  induction tw with
  | nil => intro aw k v _ hm; simp at hm
  | cons q tw ih =>
    intro aw k v hnodup hm
    simp only [List.map_cons, List.nodup_cons] at hnodup
    simp only [List.foldl_cons]
    rcases List.mem_cons.1 hm with h | h
    · subst h
      rw [dget_foldl_pairs_untouched g tw (dset aw k (g (k, v))) k
        (fun p hp hc => hnodup.1 (by simpa [hc] using List.mem_map_of_mem Prod.fst hp))]
      exact dget_dset_self aw k (g (k, v))
    · exact ih (dset aw q.1 (g q)) k v hnodup.2 h

end B2B

namespace B2B

theorem touchpoint_type_weights_pos (t : TouchpointType) :
    0 < touchpoint_type_weights t := by
  cases t <;> norm_num [touchpoint_type_weights]

theorem stage_progression_weights_pos (s : B2BStageType) :
    0 < stage_progression_weights s := by
  cases s <;> norm_num [stage_progression_weights]

theorem lead_quality_multipliers_pos (s : String) :
    0 < lead_quality_multipliers s := by
  unfold lead_quality_multipliers
  split_ifs <;> norm_num

theorem _get_deal_size_multiplier_pos (s : String) :
    0 < _get_deal_size_multiplier s := by
  unfold _get_deal_size_multiplier
  split_ifs <;> norm_num

theorem _get_expected_cycle_days_pos (s : String) :
    0 < _get_expected_cycle_days s := by
  unfold _get_expected_cycle_days
  split_ifs <;> norm_num

theorem _calculate_account_complexity_pos (o : OpportunityData) :
    0 < _calculate_account_complexity o := by
  unfold _calculate_account_complexity
  dsimp only
  split_ifs <;> norm_num

theorem velocityBonus_pos (o : OpportunityData) : 0 < velocityBonus o := by
  unfold velocityBonus
  have hepos : (0 : ℚ) < ((_get_expected_cycle_days o.deal_size_tier : ℤ) : ℚ) := by
    exact_mod_cast _get_expected_cycle_days_pos o.deal_size_tier
  by_cases h : o.sales_cycle_days < _get_expected_cycle_days o.deal_size_tier
  · rw [if_pos h]
    have hca : ((o.sales_cycle_days : ℤ) : ℚ) < ((_get_expected_cycle_days o.deal_size_tier : ℤ) : ℚ) := by
      exact_mod_cast h
    have hpos : (0 : ℚ) <
        (((_get_expected_cycle_days o.deal_size_tier : ℤ) : ℚ) - ((o.sales_cycle_days : ℤ) : ℚ)) /
          ((_get_expected_cycle_days o.deal_size_tier : ℤ) : ℚ) * (1/2) := by
      apply mul_pos (div_pos (by linarith) hepos)
      norm_num
    linarith
  · rw [if_neg h]
    exact lt_of_lt_of_le (by norm_num) (le_max_left _ _)

/-- The keys written by the weight-building fold all come from the touchpoint
list. -/
theorem nod_keys_avoid (W : TouchpointData → ℚ) (l : List TouchpointData)
    (s0 : AttrMap × ℚ) (k : String)
    (h0 : ∀ p ∈ s0.1, p.1 ≠ k) (h : ∀ tp ∈ l, tp.touchpoint_id ≠ k) :
    ∀ p ∈ (l.foldl (fun (s : AttrMap × ℚ) tp =>
        (dset s.1 tp.touchpoint_id (W tp), s.2 + W tp)) s0).1, p.1 ≠ k := by
  apply foldl_preserve (fun (s : AttrMap × ℚ) => ∀ p ∈ s.1, p.1 ≠ k) _ l s0 h0
  intro s tp htp hs p hp
  rcases mem_dset _ _ _ p hp with hh | hh
  · exact hs p hh
  · rw [hh]
    exact h tp htp

/-- `normalizedOppDistribute` leaves keys outside the touchpoint list
untouched. -/
theorem nod_untouched (W : TouchpointData → ℚ) (l : List TouchpointData)
    (amount : ℚ) (aw : AttrMap) (k : String)
    (h : ∀ tp ∈ l, tp.touchpoint_id ≠ k) :
    dget (normalizedOppDistribute W l amount aw) k = dget aw k := by
  unfold normalizedOppDistribute
  by_cases hl : l.isEmpty = true
  · rw [if_pos hl]
  · rw [if_neg hl]
    dsimp only
    split
    · exact dget_foldl_pairs_untouched _ _ aw k
        (nod_keys_avoid W l ([], 0) k (by intro p hp; simp at hp) h)
    · rfl

/-- Under positive weights and duplicate-free ids, `normalizedOppDistribute`
assigns each touchpoint its normalized share of the amount. -/
theorem nod_dget_mem (W : TouchpointData → ℚ) (l : List TouchpointData)
    (amount : ℚ) (aw : AttrMap)
    (hW : ∀ tp ∈ l, 0 < W tp)
    (hnodup : (l.map (fun tp => tp.touchpoint_id)).Nodup)
    (t : TouchpointData) (ht : t ∈ l) :
    dget (normalizedOppDistribute W l amount aw) t.touchpoint_id =
      some (W t / (l.map W).sum * amount) := by
  have hne : l ≠ [] := by
    intro hc
    subst hc
    simp at ht
  have hempty : ¬(l.isEmpty = true) := by
    simp [List.isEmpty_iff, hne]
  have hsum : 0 < (l.map W).sum := by
    apply List.sum_pos
    · intro x hx
      rcases List.mem_map.1 hx with ⟨tp, htp, rfl⟩
      exact hW tp htp
    · simp [List.map_eq_nil_iff, hne]
  unfold normalizedOppDistribute
  rw [if_neg hempty]
  rw [foldl_dset_pair_eq W l [] 0 hnodup (by intro tp _ p hp; simp at hp)]
  dsimp only
  rw [if_pos (by simpa using hsum)]
  rw [zero_add, List.nil_append]
  rw [dget_foldl_pairs_mem (fun p => p.2 / (l.map W).sum * amount)
    (l.map (fun tp => (tp.touchpoint_id, W tp))) aw t.touchpoint_id (W t)
    (by simpa using hnodup)
    (List.mem_map_of_mem (fun tp => (tp.touchpoint_id, W tp)) ht)]

end B2B

namespace B2B

/-- Conservation of `normalizedOppDistribute`: with positive weights and
duplicate-free ids, the values it assigns over the touchpoint list sum to the
amount. -/
theorem nod_sum (W : TouchpointData → ℚ) (l : List TouchpointData)
    (amount : ℚ) (aw : AttrMap)
    (hW : ∀ tp ∈ l, 0 < W tp)
    (hnodup : (l.map (fun tp => tp.touchpoint_id)).Nodup)
    (hne : l ≠ []) :
    (l.map (fun tp =>
      dgetD (normalizedOppDistribute W l amount aw) tp.touchpoint_id 0)).sum = amount := by
  have hsum : 0 < (l.map W).sum := by
    apply List.sum_pos
    · intro x hx
      rcases List.mem_map.1 hx with ⟨tp, htp, rfl⟩
      exact hW tp htp
    · simp [List.map_eq_nil_iff, hne]
  have hmap : l.map (fun tp =>
      dgetD (normalizedOppDistribute W l amount aw) tp.touchpoint_id 0) =
      l.map (fun tp => W tp * (amount / (l.map W).sum)) := by
    apply List.map_congr_left
    intro t ht
    rw [dgetD, nod_dget_mem W l amount aw hW hnodup t ht]
    rw [Option.getD_some]
    rw [div_mul_eq_mul_div, mul_div_assoc]
  rw [hmap, List.sum_map_mul_right]
  field_simp

/-- `normalizedOppDistribute` preserves non-negativity of the dict when the
weights and the amount are non-negative. -/
theorem nod_nonneg (W : TouchpointData → ℚ) (l : List TouchpointData)
    (amount : ℚ) (aw : AttrMap)
    (hW : ∀ tp ∈ l, 0 ≤ W tp) (ha : 0 ≤ amount) (haw : AttrNonneg aw) :
    AttrNonneg (normalizedOppDistribute W l amount aw) := by
  have hvals : ∀ p ∈ (l.foldl (fun (s : AttrMap × ℚ) tp =>
      (dset s.1 tp.touchpoint_id (W tp), s.2 + W tp)) ([], 0)).1, 0 ≤ p.2 := by
    apply foldl_preserve (fun (s : AttrMap × ℚ) => ∀ p ∈ s.1, 0 ≤ p.2)
    · intro p hp
      simp at hp
    · intro s tp htp hs p hp
      rcases mem_dset _ _ _ p hp with hh | hh
      · exact hs p hh
      · rw [hh]
        exact hW tp htp
  unfold normalizedOppDistribute
  by_cases hl : l.isEmpty = true
  · rw [if_pos hl]
    exact haw
  · rw [if_neg hl]
    dsimp only
    split
    next htot =>
      apply foldl_preserve AttrNonneg _ _ aw haw
      intro d p hp hd
      apply attrNonneg_dset _ _ _ hd
      exact mul_nonneg (div_nonneg (hvals p hp) (le_of_lt htot)) ha
    · exact haw

/-- Folds of `normalizedOppDistribute` steps over further opportunities leave
a key untouched when none of their touchpoints carries it. -/
theorem dget_foldl_nod_untouched (W : OpportunityData → TouchpointData → ℚ)
    (touchpoint_data : List TouchpointData) :
    ∀ (l2 : List OpportunityData) (aw : AttrMap) (k : String),
      (∀ o ∈ l2, ∀ tp ∈ touchpoint_data,
        tp.account_id = o.account_id → tp.touchpoint_id ≠ k) →
      dget (l2.foldl (fun a o => normalizedOppDistribute (W o)
        (touchpoint_data.filter (fun tp => tp.account_id = o.account_id)) o.amount a) aw) k
        = dget aw k := by
  intro l2
  induction l2 with
  | nil => intro aw k _; rfl
  | cons o l2 ih =>
    intro aw k h
    simp only [List.foldl_cons]
    rw [ih _ k (fun o' ho' => h o' (by simp [ho']))]
    apply nod_untouched
    intro tp htp
    exact h o (by simp) tp (List.mem_of_mem_filter htp)
      (by simpa using (List.of_mem_filter htp))

end B2B

namespace B2B

theorem timeDecayWeight_pos (expw : ℤ → ℚ → ℚ)
    (hexp : ∀ d h, 0 < expw d h) (o : OpportunityData) (tp : TouchpointData) :
    0 < timeDecayWeight expw o tp :=
  mul_pos (hexp _ _) (touchpoint_type_weights_pos _)

/-- A fold of `timeDecayOpp` steps leaves a key untouched when none of the
opportunities' account touchpoints carries it. -/
theorem dget_foldl_timeDecay_untouched (expw : ℤ → ℚ → ℚ)
    (touchpoint_data : List TouchpointData) (l2 : List OpportunityData)
    (aw : AttrMap) (k : String)
    (h : ∀ o ∈ l2, ∀ tp ∈ touchpoint_data,
      tp.account_id = o.account_id → tp.touchpoint_id ≠ k) :
    dget (l2.foldl (timeDecayOpp expw touchpoint_data) aw) k = dget aw k :=
  dget_foldl_nod_untouched (timeDecayWeight expw) touchpoint_data l2 aw k h

end B2B

namespace B2B

/-- C1 (amended): in `calculate_b2b_time_decay`, each opportunity's writes
overwrite (`attribution_weights[tp_id] = …`) rather than accumulate, so the
conservation property holds per opportunity exactly when no later opportunity
in the list shares its `account_id`.  Part one: for such an opportunity with
at least one account touchpoint and globally duplicate-free touchpoint ids,
the values over its account touchpoints sum to exactly its `amount` (hence
within any tolerance).  Part two: an opportunity with zero matching
touchpoints contributes nothing to the output map. -/
theorem time_decay_conservation (expw : ℤ → ℚ → ℚ)
    (hexp : ∀ d h, 0 < expw d h)
    (touchpoint_data : List TouchpointData)
    (hnodup : (touchpoint_data.map (fun tp => tp.touchpoint_id)).Nodup) :
    (∀ (opps1 opps2 : List OpportunityData) (o : OpportunityData),
      (∀ o' ∈ opps2, o'.account_id ≠ o.account_id) →
      touchpoint_data.filter (fun tp => tp.account_id = o.account_id) ≠ [] →
      ((touchpoint_data.filter (fun tp => tp.account_id = o.account_id)).map
        (fun tp => dgetD (calculate_b2b_time_decay expw touchpoint_data
          (opps1 ++ o :: opps2)) tp.touchpoint_id 0)).sum = o.amount) ∧
    (∀ (opps1 opps2 : List OpportunityData) (o : OpportunityData),
      touchpoint_data.filter (fun tp => tp.account_id = o.account_id) = [] →
      calculate_b2b_time_decay expw touchpoint_data (opps1 ++ o :: opps2) =
        calculate_b2b_time_decay expw touchpoint_data (opps1 ++ opps2)) := by
  constructor
  · intro opps1 opps2 o hacc hne
    have hlsub : ((touchpoint_data.filter (fun tp => tp.account_id = o.account_id)).map
        (fun tp => tp.touchpoint_id)).Nodup :=
      List.Nodup.sublist (List.Sublist.map _ (List.filter_sublist _)) hnodup
    have hW : ∀ tp ∈ touchpoint_data.filter (fun tp => tp.account_id = o.account_id),
        0 < timeDecayWeight expw o tp :=
      fun tp _ => timeDecayWeight_pos expw hexp o tp
    have hcalc : calculate_b2b_time_decay expw touchpoint_data (opps1 ++ o :: opps2)
        = opps2.foldl (timeDecayOpp expw touchpoint_data)
            (timeDecayOpp expw touchpoint_data
              (opps1.foldl (timeDecayOpp expw touchpoint_data) []) o) := by
      unfold calculate_b2b_time_decay
      rw [List.foldl_append]
      rfl
    rw [hcalc]
    have huntouched : ∀ tp ∈ touchpoint_data.filter (fun tp => tp.account_id = o.account_id),
        dgetD (opps2.foldl (timeDecayOpp expw touchpoint_data)
          (timeDecayOpp expw touchpoint_data
            (opps1.foldl (timeDecayOpp expw touchpoint_data) []) o)) tp.touchpoint_id 0 =
        dgetD (timeDecayOpp expw touchpoint_data
          (opps1.foldl (timeDecayOpp expw touchpoint_data) []) o) tp.touchpoint_id 0 := by
      intro tp htp
      unfold dgetD
      rw [dget_foldl_timeDecay_untouched expw touchpoint_data opps2 _ tp.touchpoint_id]
      intro o' ho' tp' htp' hacc' hid
      have heq : tp' = tp :=
        List.inj_on_of_nodup_map hnodup htp' (List.mem_of_mem_filter htp) hid
      subst heq
      have h1 : tp'.account_id = o.account_id := by
        simpa using List.of_mem_filter htp
      exact hacc o' ho' (by rw [← hacc', h1])
    rw [List.map_congr_left huntouched]
    show ((touchpoint_data.filter (fun tp => tp.account_id = o.account_id)).map
      (fun tp => dgetD (normalizedOppDistribute (timeDecayWeight expw o)
        (touchpoint_data.filter (fun tp => tp.account_id = o.account_id)) o.amount
        (opps1.foldl (timeDecayOpp expw touchpoint_data) [])) tp.touchpoint_id 0)).sum = o.amount
    exact nod_sum (timeDecayWeight expw o) _ o.amount _ hW hlsub hne
  · intro opps1 opps2 o hempty
    unfold calculate_b2b_time_decay
    rw [List.foldl_append, List.foldl_append, List.foldl_cons]
    have hstep : timeDecayOpp expw touchpoint_data
        (opps1.foldl (timeDecayOpp expw touchpoint_data) []) o =
        opps1.foldl (timeDecayOpp expw touchpoint_data) [] := by
      unfold timeDecayOpp normalizedOppDistribute
      rw [hempty]
      rfl
    rw [hstep]

end B2B

namespace B2B

/-- C5: for non-negative sales, marketing and joint totals the alignment
score is 0 on a zero total and otherwise
`max 0 (100 − (|marketing% − 40| + |sales% − 40| + |joint% − 20|))`; it always
lies in `[0, 100]`, and the letter grade is the pure threshold function
≥90 A+, ≥80 A, ≥70 B, ≥60 C, ≥50 D, else F. -/
theorem alignment_score_spec (s m j : ℚ) (hs : 0 ≤ s) (hm : 0 ≤ m) (hj : 0 ≤ j) :
    (s + m + j = 0 → _calculate_alignment_score s m j = 0) ∧
    (s + m + j ≠ 0 → _calculate_alignment_score s m j =
      max 0 (100 - (|m / (s + m + j) * 100 - 40| + |s / (s + m + j) * 100 - 40| +
        |j / (s + m + j) * 100 - 20|))) ∧
    0 ≤ _calculate_alignment_score s m j ∧
    _calculate_alignment_score s m j ≤ 100 ∧
    (∀ x : ℚ, _get_alignment_grade x =
      if 90 ≤ x then "A+" else if 80 ≤ x then "A" else if 70 ≤ x then "B"
      else if 60 ≤ x then "C" else if 50 ≤ x then "D" else "F") := by
  have habs : ∀ a b c : ℚ, 0 ≤ |a| + |b| + |c| := by
    intro a b c
    have := abs_nonneg a
    have := abs_nonneg b
    have := abs_nonneg c
    linarith
  refine ⟨?_, ?_, ?_, ?_, ?_⟩
  · intro h
    unfold _calculate_alignment_score
    rw [if_pos h]
  · intro h
    unfold _calculate_alignment_score
    rw [if_neg h]
    dsimp only
    rw [pyabs_eq_abs, pyabs_eq_abs, pyabs_eq_abs, pymax_eq_max]
  · unfold _calculate_alignment_score
    by_cases h : s + m + j = 0
    · rw [if_pos h]
    · rw [if_neg h]
      dsimp only
      rw [pyabs_eq_abs, pyabs_eq_abs, pyabs_eq_abs, pymax_eq_max]
      exact le_max_left _ _
  · unfold _calculate_alignment_score
    by_cases h : s + m + j = 0
    · rw [if_pos h]
      norm_num
    · rw [if_neg h]
      dsimp only
      rw [pyabs_eq_abs, pyabs_eq_abs, pyabs_eq_abs, pymax_eq_max]
      apply max_le (by norm_num)
      have := habs (m / (s + m + j) * 100 - 40) (s / (s + m + j) * 100 - 40)
        (j / (s + m + j) * 100 - 20)
      linarith
  · intro x
    rfl

/-- C5 witness: the theorem applied at the balanced split `(40, 40, 20)`,
whose score evaluates to 100 and grade to `A+`. -/
theorem alignment_score_spec_witness :
    ((40 : ℚ) + 40 + 20 = 0 → _calculate_alignment_score 40 40 20 = 0) ∧
    ((40 : ℚ) + 40 + 20 ≠ 0 → _calculate_alignment_score 40 40 20 =
      max 0 (100 - (|(40 : ℚ) / (40 + 40 + 20) * 100 - 40| + |(40 : ℚ) / (40 + 40 + 20) * 100 - 40| +
        |(20 : ℚ) / (40 + 40 + 20) * 100 - 20|))) ∧
    0 ≤ _calculate_alignment_score 40 40 20 ∧
    _calculate_alignment_score 40 40 20 ≤ 100 ∧
    (∀ x : ℚ, _get_alignment_grade x =
      if 90 ≤ x then "A+" else if 80 ≤ x then "A" else if 70 ≤ x then "B"
      else if 60 ≤ x then "C" else if 50 ≤ x then "D" else "F") :=
  alignment_score_spec 40 40 20 (by norm_num) (by norm_num) (by norm_num)

end B2B

namespace B2B

/-- C2 counterexample: `combine_b2b_attribution_factors` does not renormalize
the caller-supplied weights.  On the factor maps `({x: 1}, {}, {}, {}, {})`
the weight vector `(2, 2, 2, 1.2, 0.8)` yields `x ↦ 2` while the default
vector yields `x ↦ 0.25`, so the two outputs are not pointwise identical. -/
theorem combine_weights_counterexample :
    dget (combine_b2b_attribution_factors [("x", 1)] [] [] [] []
      (some ⟨2, 2, 2, 6/5, 4/5⟩)) "x" = some 2 ∧
    dget (combine_b2b_attribution_factors [("x", 1)] [] [] [] []
      (some ⟨1/4, 1/4, 1/4, 3/20, 1/10⟩)) "x" = some (1/4) ∧
    some (2 : ℚ) ≠ some (1/4 : ℚ) := by
  refine ⟨?_, ?_, by norm_num⟩ <;>
    norm_num [combine_b2b_attribution_factors, unionKeys, dget, dgetD, Option.getD]

/-- C2 (amended): the combiner applies the supplied weights as-is, so the
vector `(2, 2, 2, 1.2, 0.8)` — which is 8 times the default — produces the
combined map whose every value is 8 times the default-weight value, over the
same keys in the same order; the outputs agree pointwise only at touchpoints
whose combined value is 0. -/
theorem combine_weights_scale (time_weighted quality_weighted account_based
    stage_weighted velocity_impact : AttrMap) :
    combine_b2b_attribution_factors time_weighted quality_weighted account_based
      stage_weighted velocity_impact (some ⟨2, 2, 2, 6/5, 4/5⟩) =
    (combine_b2b_attribution_factors time_weighted quality_weighted account_based
      stage_weighted velocity_impact none).map (fun p => (p.1, 8 * p.2)) := by
  unfold combine_b2b_attribution_factors
  rw [List.map_map]
  apply List.map_congr_left
  intro k _
  simp only [Option.getD_some, Option.getD_none, Function.comp_apply, defaultCombineWeights]
  rw [Prod.mk.injEq]
  refine ⟨rfl, ?_⟩
  ring

end B2B

namespace B2B

/-- C4: the ROI pass of `analyze_channel_performance` guards on
`total_cost > 0`, not on `total_attribution > 0`, and then computes
`total_cost / total_attribution` unguarded.  A channel with positive cost and
zero attribution — here one touchpoint with engagement 0, cost 100, whose
combined value is 0 — therefore raises `ZeroDivisionError` instead of
yielding `cost_per_attribution = 0`. -/
theorem channel_cost_per_attribution_zero_division :
    analyze_channel_performance [("t1", 0)]
      [⟨"t1", "l1", "A", 0, .website_visit, "email", none, none, 0, .awareness, 100,
        false, true, none⟩] = .error "ZeroDivisionError" := by
  norm_num [analyze_channel_performance, channelGroups, updateChannel, addToChannel,
    touchpointLookup, finalizeChannel, typeValue, List.mapM, List.mapM.loop, Except.map]

end B2B

namespace B2B

/-- A fold of direct per-touchpoint writes leaves unrelated keys untouched. -/
theorem dget_foldl_tp_untouched (c : TouchpointData → ℚ) :
    ∀ (l : List TouchpointData) (aw : AttrMap) (k : String),
      (∀ tp ∈ l, tp.touchpoint_id ≠ k) →
      dget (l.foldl (fun a tp => dset a tp.touchpoint_id (c tp)) aw) k = dget aw k := by
  intro l
  induction l with
  | nil => intro aw k _; rfl
  | cons tp l ih =>
    intro aw k h
    simp only [List.foldl_cons]
    rw [ih _ k (fun tp' htp' => h tp' (by simp [htp']))]
    exact dget_dset_ne aw tp.touchpoint_id k (c tp) (fun hc => h tp (by simp) hc.symm)

/-- Under duplicate-free ids, a fold of direct per-touchpoint writes assigns
each listed touchpoint its own value. -/
theorem dget_foldl_tp_mem (c : TouchpointData → ℚ) :
    ∀ (l : List TouchpointData) (aw : AttrMap) (t : TouchpointData),
      (l.map (fun tp => tp.touchpoint_id)).Nodup → t ∈ l →
      dget (l.foldl (fun a tp => dset a tp.touchpoint_id (c tp)) aw) t.touchpoint_id =
        some (c t) := by
  intro l
  induction l with
  | nil => intro aw t _ ht; simp at ht
  | cons tp l ih =>
    intro aw t hnodup ht
    simp only [List.map_cons, List.nodup_cons] at hnodup
    simp only [List.foldl_cons]
    rcases List.mem_cons.1 ht with h | h
    · subst h
      rw [dget_foldl_tp_untouched c l _ t.touchpoint_id
        (fun tp' htp' hc =>
          hnodup.1 (by rw [← hc]; exact List.mem_map_of_mem (fun x => x.touchpoint_id) htp'))]
      exact dget_dset_self aw t.touchpoint_id (c t)
    · exact ih _ t hnodup.2 h

/-- `velocityOpp` leaves a key untouched when none of the opportunity's
account touchpoints carries it. -/
theorem velocityOpp_untouched (touchpoint_data : List TouchpointData)
    (aw : AttrMap) (o : OpportunityData) (k : String)
    (h : ∀ tp ∈ touchpoint_data, tp.account_id = o.account_id → tp.touchpoint_id ≠ k) :
    dget (velocityOpp touchpoint_data aw o) k = dget aw k := by
  unfold velocityOpp
  by_cases hl : (touchpoint_data.filter (fun tp => tp.account_id = o.account_id)).isEmpty = true
  · rw [if_pos hl]
  · rw [if_neg hl]
    apply dget_foldl_tp_untouched
    intro tp htp
    exact h tp (List.mem_of_mem_filter htp) (by simpa using List.of_mem_filter htp)

/-- A fold of `velocityOpp` steps over further opportunities leaves a key
untouched when none of their account touchpoints carries it. -/
theorem dget_foldl_velocity_untouched (touchpoint_data : List TouchpointData) :
    ∀ (l2 : List OpportunityData) (aw : AttrMap) (k : String),
      (∀ o ∈ l2, ∀ tp ∈ touchpoint_data,
        tp.account_id = o.account_id → tp.touchpoint_id ≠ k) →
      dget (l2.foldl (velocityOpp touchpoint_data) aw) k = dget aw k := by
  intro l2
  induction l2 with
  | nil => intro aw k _; rfl
  | cons o l2 ih =>
    intro aw k h
    simp only [List.foldl_cons]
    rw [ih _ k (fun o' ho' => h o' (by simp [ho']))]
    exact velocityOpp_untouched touchpoint_data aw o k (h o (by simp))

end B2B

namespace B2B

/-- C6 (amended): `calculate_pipeline_velocity_impact` writes with plain
assignment, so a touchpoint whose account has several won opportunities keeps
only the contribution `(engagement_score/100) × velocity_impact` of the LAST
matching opportunity in the list — each later opportunity overwrites, it does
not add.  Stated for globally duplicate-free touchpoint ids. -/
theorem velocity_last_opportunity_wins (touchpoint_data : List TouchpointData)
    (hnodup : (touchpoint_data.map (fun tp => tp.touchpoint_id)).Nodup)
    (opps1 opps2 : List OpportunityData) (o : OpportunityData) (t : TouchpointData)
    (ht : t ∈ touchpoint_data) (hacct : t.account_id = o.account_id)
    (hlater : ∀ o' ∈ opps2, o'.account_id ≠ o.account_id) :
    dget (calculate_pipeline_velocity_impact (opps1 ++ o :: opps2) touchpoint_data)
      t.touchpoint_id = some (velocityContribution o t) := by
  have hcalc : calculate_pipeline_velocity_impact (opps1 ++ o :: opps2) touchpoint_data
      = opps2.foldl (velocityOpp touchpoint_data)
          (velocityOpp touchpoint_data
            (opps1.foldl (velocityOpp touchpoint_data) []) o) := by
    unfold calculate_pipeline_velocity_impact
    rw [List.foldl_append]
    rfl
  rw [hcalc]
  rw [dget_foldl_velocity_untouched touchpoint_data opps2 _ t.touchpoint_id]
  · have htf : t ∈ touchpoint_data.filter (fun tp => tp.account_id = o.account_id) :=
      List.mem_filter.2 ⟨ht, by simpa using hacct⟩
    have hempty : ¬((touchpoint_data.filter (fun tp => tp.account_id = o.account_id)).isEmpty
        = true) := by
      intro hc
      rw [List.isEmpty_iff] at hc
      rw [hc] at htf
      simp at htf
    unfold velocityOpp
    rw [if_neg hempty]
    apply dget_foldl_tp_mem
    · exact List.Nodup.sublist (List.Sublist.map _ (List.filter_sublist _)) hnodup
    · exact htf
  · intro o' ho' tp' htp' hacc' hid
    have heq : tp' = t := List.inj_on_of_nodup_map hnodup htp' ht hid
    subst heq
    exact hlater o' ho' (by rw [← hacc', hacct])

/-- C6 witness: one `smb` opportunity closed in 30 of 60 expected days and
one account touchpoint with engagement 100; applying the theorem yields the
bonus `1 + (30/60)·0.5 = 1.25` as the touchpoint's stored value. -/
theorem velocity_last_opportunity_wins_witness :
    dget (calculate_pipeline_velocity_impact
      ([] ++ (⟨"o1", "A", ["l1"], "Closed Won", 1, 100, 0, some 30, 30, "smb", 1, 0⟩ :
        OpportunityData) :: [])
      [⟨"t1", "l1", "A", 0, .website_visit, "web", none, none, 100, .awareness, 0,
        false, true, none⟩]) "t1" =
      some (velocityContribution
        ⟨"o1", "A", ["l1"], "Closed Won", 1, 100, 0, some 30, 30, "smb", 1, 0⟩
        ⟨"t1", "l1", "A", 0, .website_visit, "web", none, none, 100, .awareness, 0,
          false, true, none⟩) :=
  velocity_last_opportunity_wins
    [⟨"t1", "l1", "A", 0, .website_visit, "web", none, none, 100, .awareness, 0,
      false, true, none⟩]
    (by simp) [] []
    ⟨"o1", "A", ["l1"], "Closed Won", 1, 100, 0, some 30, 30, "smb", 1, 0⟩
    ⟨"t1", "l1", "A", 0, .website_visit, "web", none, none, 100, .awareness, 0,
      false, true, none⟩
    (by simp) rfl (by simp)

/-- C6 counterexample: two won opportunities on account `A` (bonuses 1.25 and
1.0) share the touchpoint `t1` with engagement 100; the output stores the
last contribution `1`, not the sum `1.25 + 1 = 2.25` the claim requires. -/
theorem velocity_sum_counterexample :
    dget (calculate_pipeline_velocity_impact
      [⟨"o1", "A", ["l1"], "Closed Won", 1, 100, 0, some 30, 30, "smb", 1, 0⟩,
       ⟨"o2", "A", ["l1"], "Closed Won", 1, 200, 0, some 60, 60, "smb", 1, 0⟩]
      [⟨"t1", "l1", "A", 0, .website_visit, "web", none, none, 100, .awareness, 0,
        false, true, none⟩]) "t1" = some 1 ∧
    velocityContribution
        (⟨"o1", "A", ["l1"], "Closed Won", 1, 100, 0, some 30, 30, "smb", 1, 0⟩ :
          OpportunityData)
        ⟨"t1", "l1", "A", 0, .website_visit, "web", none, none, 100, .awareness, 0,
          false, true, none⟩ +
      velocityContribution
        (⟨"o2", "A", ["l1"], "Closed Won", 1, 200, 0, some 60, 60, "smb", 1, 0⟩ :
          OpportunityData)
        ⟨"t1", "l1", "A", 0, .website_visit, "web", none, none, 100, .awareness, 0,
          false, true, none⟩ = 9/4 ∧
    some (1 : ℚ) ≠ some (9/4 : ℚ) := by
  refine ⟨?_, ?_, by norm_num⟩ <;>
    norm_num +decide [calculate_pipeline_velocity_impact, velocityOpp, velocityContribution,
      velocityBonus, _get_expected_cycle_days, dget, dset, pymax,
      touchpoint_type_weights]

end B2B

namespace B2B

/-- C1 counterexample: two opportunities on the same account `A` (amounts 100
and 200) and a single account touchpoint.  The second opportunity's write
overwrites the first's, so the values over the FIRST opportunity's account
touchpoints sum to 200, not to its amount 100.  (The value is independent of
the decay kernel — with one touchpoint the normalized share is `w/w = 1` for
any positive kernel — so the kernel is instantiated with the constant 1.) -/
theorem time_decay_shared_account_counterexample :
    ((([⟨"t1", "l1", "A", 0, .website_visit, "web", none, none, 100, .awareness, 0,
        false, true, none⟩] : List TouchpointData).filter
      (fun tp => tp.account_id = "A")).map
      (fun tp => dgetD (calculate_b2b_time_decay (fun _ _ => 1)
        [⟨"t1", "l1", "A", 0, .website_visit, "web", none, none, 100, .awareness, 0,
          false, true, none⟩]
        [⟨"o1", "A", ["l1"], "Closed Won", 1, 100, 0, some 30, 30, "smb", 1, 0⟩,
         ⟨"o2", "A", ["l1"], "Closed Won", 1, 200, 0, some 30, 30, "smb", 1, 0⟩])
        tp.touchpoint_id 0)).sum = 200 ∧
    (⟨"o1", "A", ["l1"], "Closed Won", 1, 100, 0, some 30, 30, "smb", 1, 0⟩ :
      OpportunityData).amount = 100 ∧
    (200 : ℚ) ≠ 100 := by
  refine ⟨?_, rfl, by norm_num⟩
  norm_num +decide [calculate_b2b_time_decay, timeDecayOpp, normalizedOppDistribute,
    timeDecayWeight, timeDecayHalfLife, conversionDate, dset, dget, dgetD,
    touchpoint_type_weights, pymax, pymaxI]

/-- C1 witness: the conservation theorem applied to one opportunity of amount
100 with one account touchpoint and the constant-1 kernel. -/
theorem time_decay_conservation_witness :
    ((([⟨"t1", "l1", "A", 0, .website_visit, "web", none, none, 100, .awareness, 0,
        false, true, none⟩] : List TouchpointData).filter
      (fun tp => tp.account_id =
        (⟨"o1", "A", ["l1"], "Closed Won", 1, 100, 0, some 30, 30, "smb", 1, 0⟩ :
          OpportunityData).account_id)).map
      (fun tp => dgetD (calculate_b2b_time_decay (fun _ _ => 1)
        [⟨"t1", "l1", "A", 0, .website_visit, "web", none, none, 100, .awareness, 0,
          false, true, none⟩]
        ([] ++ (⟨"o1", "A", ["l1"], "Closed Won", 1, 100, 0, some 30, 30, "smb", 1, 0⟩ :
          OpportunityData) :: []))
        tp.touchpoint_id 0)).sum =
      (⟨"o1", "A", ["l1"], "Closed Won", 1, 100, 0, some 30, 30, "smb", 1, 0⟩ :
        OpportunityData).amount :=
  (time_decay_conservation (fun _ _ => 1) (fun _ _ => one_pos)
    [⟨"t1", "l1", "A", 0, .website_visit, "web", none, none, 100, .awareness, 0,
      false, true, none⟩]
    (by simp)).1 [] []
    ⟨"o1", "A", ["l1"], "Closed Won", 1, 100, 0, some 30, 30, "smb", 1, 0⟩
    (by simp) (by simp)

end B2B

namespace B2B

theorem alignStep_le (touchpoint_data : List TouchpointData)
    (s : ℚ × ℚ × ℚ) (p : String × ℚ) (hv : 0 ≤ p.2) :
    (alignStep touchpoint_data s p).1 + (alignStep touchpoint_data s p).2.1 +
      (alignStep touchpoint_data s p).2.2 ≤ s.1 + s.2.1 + s.2.2 + p.2 := by
  unfold alignStep
  cases touchpointLookup touchpoint_data p.1 with
  | none => dsimp only; linarith
  | some tp =>
    dsimp only
    by_cases h1 : tp.is_sales_touch ∧ tp.is_marketing_touch
    · simp only [if_pos h1]; linarith
    · rw [if_neg h1]
      by_cases h2 : tp.is_sales_touch = true
      · simp only [h2, if_true]; linarith
      · simp only [h2, if_false, Bool.false_eq_true]
        by_cases h3 : tp.is_marketing_touch = true
        · simp only [h3, if_true]; linarith
        · simp only [h3, if_false, Bool.false_eq_true]; linarith

theorem alignStep_eq (touchpoint_data : List TouchpointData)
    (s : ℚ × ℚ × ℚ) (p : String × ℚ)
    (hfound : ∃ tp, touchpointLookup touchpoint_data p.1 = some tp ∧
      (tp.is_sales_touch = true ∨ tp.is_marketing_touch = true)) :
    (alignStep touchpoint_data s p).1 + (alignStep touchpoint_data s p).2.1 +
      (alignStep touchpoint_data s p).2.2 = s.1 + s.2.1 + s.2.2 + p.2 := by
  obtain ⟨tp, hlook, hflag⟩ := hfound
  unfold alignStep
  rw [hlook]
  dsimp only
  by_cases h1 : tp.is_sales_touch ∧ tp.is_marketing_touch
  · simp only [if_pos h1]; ring
  · rw [if_neg h1]
    by_cases h2 : tp.is_sales_touch = true
    · simp only [h2, if_true]; ring
    · simp only [h2, if_false, Bool.false_eq_true]
      rcases hflag with hf | hf
      · exact absurd hf h2
      · simp only [hf, if_true]; ring

theorem alignmentTotals_foldl_le (touchpoint_data : List TouchpointData) :
    ∀ (ar : AttrMap) (s0 : ℚ × ℚ × ℚ), (∀ p ∈ ar, 0 ≤ p.2) →
      (ar.foldl (alignStep touchpoint_data) s0).1 +
        (ar.foldl (alignStep touchpoint_data) s0).2.1 +
        (ar.foldl (alignStep touchpoint_data) s0).2.2 ≤
      s0.1 + s0.2.1 + s0.2.2 + (ar.map (fun p => p.2)).sum := by
  intro ar
  induction ar with
  | nil => intro s0 _; simp
  | cons p ar ih =>
    intro s0 h
    simp only [List.foldl_cons, List.map_cons, List.sum_cons]
    have h1 := ih (alignStep touchpoint_data s0 p) (fun q hq => h q (by simp [hq]))
    have h2 := alignStep_le touchpoint_data s0 p (h p (by simp))
    linarith

theorem alignmentTotals_foldl_eq (touchpoint_data : List TouchpointData) :
    ∀ (ar : AttrMap) (s0 : ℚ × ℚ × ℚ),
      (∀ p ∈ ar, ∃ tp, touchpointLookup touchpoint_data p.1 = some tp ∧
        (tp.is_sales_touch = true ∨ tp.is_marketing_touch = true)) →
      (ar.foldl (alignStep touchpoint_data) s0).1 +
        (ar.foldl (alignStep touchpoint_data) s0).2.1 +
        (ar.foldl (alignStep touchpoint_data) s0).2.2 =
      s0.1 + s0.2.1 + s0.2.2 + (ar.map (fun p => p.2)).sum := by
  intro ar
  induction ar with
  | nil => intro s0 _; simp
  | cons p ar ih =>
    intro s0 h
    simp only [List.foldl_cons, List.map_cons, List.sum_cons]
    have h1 := ih (alignStep touchpoint_data s0 p) (fun q hq => h q (by simp [hq]))
    have h2 := alignStep_eq touchpoint_data s0 p (h p (by simp))
    linarith

/-- C10 (amended): the alignment partition drops combined-map entries whose
id has no matching touchpoint and entries whose touchpoint carries neither
flag, so over maps with non-negative values,
`sales + marketing + joint ≤ Σ combined values`, with equality whenever every
keyed touchpoint is found and carries at least one flag.  (Equality does not
characterize that condition: a dropped entry of value 0 also preserves it,
see the counterexample.) -/
theorem alignment_partition_bound (attribution_results : AttrMap)
    (touchpoint_data : List TouchpointData)
    (hnn : ∀ p ∈ attribution_results, 0 ≤ p.2) :
    ((analyze_sales_marketing_alignment attribution_results touchpoint_data).sales_attribution +
      (analyze_sales_marketing_alignment attribution_results touchpoint_data).marketing_attribution +
      (analyze_sales_marketing_alignment attribution_results touchpoint_data).joint_attribution ≤
      (attribution_results.map (fun p => p.2)).sum) ∧
    ((∀ p ∈ attribution_results, ∃ tp, touchpointLookup touchpoint_data p.1 = some tp ∧
        (tp.is_sales_touch = true ∨ tp.is_marketing_touch = true)) →
      (analyze_sales_marketing_alignment attribution_results touchpoint_data).sales_attribution +
        (analyze_sales_marketing_alignment attribution_results touchpoint_data).marketing_attribution +
        (analyze_sales_marketing_alignment attribution_results touchpoint_data).joint_attribution =
        (attribution_results.map (fun p => p.2)).sum) := by
  constructor
  · have h := alignmentTotals_foldl_le touchpoint_data attribution_results (0, 0, 0) hnn
    simp only [analyze_sales_marketing_alignment, alignmentTotals] at *
    linarith
  · intro hfound
    have h := alignmentTotals_foldl_eq touchpoint_data attribution_results (0, 0, 0) hfound
    simp only [analyze_sales_marketing_alignment, alignmentTotals] at *
    linarith

/-- C10 witness: the bound applied to the map `{t1: 5}` with a sales-flagged
touchpoint `t1`; both the inequality and, via the flag condition, the
equality hold. -/
theorem alignment_partition_bound_witness :
    ((analyze_sales_marketing_alignment [("t1", 5)]
        [⟨"t1", "l1", "A", 0, .sales_call, "call", none, none, 80, .evaluation, 0,
          true, false, none⟩]).sales_attribution +
      (analyze_sales_marketing_alignment [("t1", 5)]
        [⟨"t1", "l1", "A", 0, .sales_call, "call", none, none, 80, .evaluation, 0,
          true, false, none⟩]).marketing_attribution +
      (analyze_sales_marketing_alignment [("t1", 5)]
        [⟨"t1", "l1", "A", 0, .sales_call, "call", none, none, 80, .evaluation, 0,
          true, false, none⟩]).joint_attribution ≤
      (([("t1", 5)] : AttrMap).map (fun p => p.2)).sum) ∧
    ((∀ p ∈ ([("t1", 5)] : AttrMap), ∃ tp, touchpointLookup
        [⟨"t1", "l1", "A", 0, .sales_call, "call", none, none, 80, .evaluation, 0,
          true, false, none⟩] p.1 = some tp ∧
        (tp.is_sales_touch = true ∨ tp.is_marketing_touch = true)) →
      (analyze_sales_marketing_alignment [("t1", 5)]
        [⟨"t1", "l1", "A", 0, .sales_call, "call", none, none, 80, .evaluation, 0,
          true, false, none⟩]).sales_attribution +
        (analyze_sales_marketing_alignment [("t1", 5)]
          [⟨"t1", "l1", "A", 0, .sales_call, "call", none, none, 80, .evaluation, 0,
            true, false, none⟩]).marketing_attribution +
        (analyze_sales_marketing_alignment [("t1", 5)]
          [⟨"t1", "l1", "A", 0, .sales_call, "call", none, none, 80, .evaluation, 0,
            true, false, none⟩]).joint_attribution =
        (([("t1", 5)] : AttrMap).map (fun p => p.2)).sum) :=
  alignment_partition_bound [("t1", 5)]
    [⟨"t1", "l1", "A", 0, .sales_call, "call", none, none, 80, .evaluation, 0,
      true, false, none⟩]
    (by norm_num)

/-- C10 counterexample, two parts.  First, on a combined map with a negative
value (`{t: −1}`) and no touchpoints, the claimed inequality
`sales + marketing + joint ≤ Σ values` fails (0 ≰ −1).  Second, on `{t: 0}`
with no touchpoints the totals equal the map sum even though the keyed
touchpoint is not found, refuting the claim's "equality exactly when every
keyed touchpoint is found and flagged". -/
theorem alignment_partition_counterexample :
    (¬((analyze_sales_marketing_alignment [("t", -1)] []).sales_attribution +
        (analyze_sales_marketing_alignment [("t", -1)] []).marketing_attribution +
        (analyze_sales_marketing_alignment [("t", -1)] []).joint_attribution ≤
        (([("t", -1)] : AttrMap).map (fun p => p.2)).sum)) ∧
    ((analyze_sales_marketing_alignment [("t", 0)] []).sales_attribution +
        (analyze_sales_marketing_alignment [("t", 0)] []).marketing_attribution +
        (analyze_sales_marketing_alignment [("t", 0)] []).joint_attribution =
        (([("t", 0)] : AttrMap).map (fun p => p.2)).sum) ∧
    touchpointLookup [] "t" = none := by
  refine ⟨?_, ?_, rfl⟩ <;>
    norm_num [analyze_sales_marketing_alignment, alignmentTotals, alignStep,
      touchpointLookup]

end B2B

namespace B2B

/-- C3 (amended): `_store_attribution_results` logs, rolls back and
RE-RAISES (`except … raise`), and the facade's own `except` re-raises again,
so a writer failure makes `calculate_b2b_attribution` fail with that error —
the already-computed result document is not returned.  Stated for every input
on which the computation itself succeeds (witnessed by the run with a
succeeding writer). -/
theorem writer_failure_propagates (expw : ℤ → ℚ → ℚ)
    (lead_data : List LeadData) (opportunity_data : List OpportunityData)
    (touchpoint_data : List TouchpointData) (w : Option CombineWeights) (e : String)
    (hok : (calculate_b2b_attribution expw (.ok ()) lead_data opportunity_data
      touchpoint_data w).isOk = true) :
    calculate_b2b_attribution expw (.error e) lead_data opportunity_data
      touchpoint_data w = .error e := by
  unfold calculate_b2b_attribution at hok ⊢
  cases hb : b2b_specific_attribution expw lead_data opportunity_data touchpoint_data with
  | error e' =>
    rw [hb] at hok
    simp [Except.isOk, Except.toBool] at hok
  | ok ar =>
    rw [hb] at hok
    dsimp only at hok ⊢
    cases hc : analyze_channel_performance ar.combined_b2b_attribution touchpoint_data with
    | error e' =>
      rw [hc] at hok
      simp [Except.isOk, Except.toBool] at hok
    | ok chan => rfl

/-- C3 witness: a dataset of one touchpoint on which the computation
succeeds; with a failing writer the calculate call returns that very
error. -/
theorem writer_failure_propagates_witness :
    calculate_b2b_attribution (fun _ _ => 1) (.error "db down") [] []
      [⟨"t1", "l1", "A", 0, .website_visit, "web", none, none, 50, .awareness, 0,
        false, true, none⟩] none = .error "db down" :=
  writer_failure_propagates (fun _ _ => 1) [] []
    [⟨"t1", "l1", "A", 0, .website_visit, "web", none, none, 50, .awareness, 0,
      false, true, none⟩] none "db down"
    (by norm_num +decide [calculate_b2b_attribution, b2b_specific_attribution,
      calculate_b2b_time_decay, timeDecayOpp, normalizedOppDistribute,
      calculate_lead_quality_impact, leadLookup, calculate_account_level_attribution,
      accountOpp, calculate_stage_progression_attribution,
      calculate_pipeline_velocity_impact, velocityOpp,
      combine_b2b_attribution_factors, defaultCombineWeights, unionKeys, generate_attribution_summary,
      sortValDesc, insertValDesc, dictOfList, analyze_channel_performance,
      channelGroups, updateChannel, addToChannel, touchpointLookup, finalizeChannel,
      typeValue, List.mapM, List.mapM.loop, Except.map, analyze_sales_marketing_alignment,
      alignmentTotals, alignStep, _calculate_alignment_score,
      _store_attribution_results, dset, dget, dgetD, stage_progression_weights,
      touchpoint_type_weights, pymax, pymaxI, pyabs, Except.isOk, Except.toBool])

/-- C3 counterexample: on the same one-touchpoint dataset the computation
succeeds when the writer succeeds, yet the identical call with a failing
writer returns an error — refuting "a writer failure does not cause
`calculate_b2b_attribution` to raise or return an error". -/
theorem writer_failure_counterexample :
    (calculate_b2b_attribution (fun _ _ => 1) (.ok ()) [] []
      [⟨"t1", "l1", "A", 0, .website_visit, "web", none, none, 50, .awareness, 0,
        false, true, none⟩] none).isOk = true ∧
    calculate_b2b_attribution (fun _ _ => 1) (.error "db down") [] []
      [⟨"t1", "l1", "A", 0, .website_visit, "web", none, none, 50, .awareness, 0,
        false, true, none⟩] none = .error "db down" := by
  constructor <;>
    norm_num +decide [calculate_b2b_attribution, b2b_specific_attribution,
      calculate_b2b_time_decay, timeDecayOpp, normalizedOppDistribute,
      calculate_lead_quality_impact, leadLookup, calculate_account_level_attribution,
      accountOpp, calculate_stage_progression_attribution,
      calculate_pipeline_velocity_impact, velocityOpp,
      combine_b2b_attribution_factors, defaultCombineWeights, unionKeys, generate_attribution_summary,
      sortValDesc, insertValDesc, dictOfList, analyze_channel_performance,
      channelGroups, updateChannel, addToChannel, touchpointLookup, finalizeChannel,
      typeValue, List.mapM, List.mapM.loop, Except.map, analyze_sales_marketing_alignment,
      alignmentTotals, alignStep, _calculate_alignment_score,
      _store_attribution_results, dset, dget, dgetD, stage_progression_weights,
      touchpoint_type_weights, pymax, pymaxI, pyabs, Except.isOk, Except.toBool]

/-- C9: the facade's `attribution_weights` argument reaches only the
`metadata` echo; erasing that echo, any two weight dictionaries (including
`None`) give byte-identical results — the five factor maps, the combined map,
the summary and both analyses do not depend on it (the engine is invoked
without weights and combines with its built-in defaults). -/
theorem attribution_weights_metadata_only (expw : ℤ → ℚ → ℚ)
    (commit : Except String Unit) (lead_data : List LeadData)
    (opportunity_data : List OpportunityData) (touchpoint_data : List TouchpointData)
    (w1 w2 : Option CombineWeights) :
    (calculate_b2b_attribution expw commit lead_data opportunity_data
      touchpoint_data w1).map eraseMetadataWeights =
    (calculate_b2b_attribution expw commit lead_data opportunity_data
      touchpoint_data w2).map eraseMetadataWeights := by
  unfold calculate_b2b_attribution
  cases b2b_specific_attribution expw lead_data opportunity_data touchpoint_data with
  | error e => rfl
  | ok ar =>
    dsimp only
    cases analyze_channel_performance ar.combined_b2b_attribution touchpoint_data with
    | error e => rfl
    | ok chan =>
      dsimp only
      cases commit with
      | ok _ => rfl
      | error e => rfl

end B2B

namespace B2B

theorem insertValDesc_perm (p : String × ℚ) :
    ∀ l : AttrMap, (insertValDesc p l).Perm (p :: l) := by
  intro l
  induction l with
  | nil => exact List.Perm.refl _
  | cons q l ih =>
    unfold insertValDesc
    by_cases h : q.2 ≤ p.2
    · rw [if_pos h]
    · rw [if_neg h]
      exact (List.Perm.cons q ih).trans (List.Perm.swap p q l)

theorem sortValDesc_perm : ∀ l : AttrMap, (sortValDesc l).Perm l := by
  intro l
  induction l with
  | nil => exact List.Perm.refl _
  | cons p l ih =>
    exact (insertValDesc_perm p (sortValDesc l)).trans (List.Perm.cons p ih)

theorem insertValDesc_pairwise (p : String × ℚ) :
    ∀ l : AttrMap, List.Pairwise (fun a b : String × ℚ => b.2 ≤ a.2) l →
      List.Pairwise (fun a b : String × ℚ => b.2 ≤ a.2) (insertValDesc p l) := by
  intro l
  induction l with
  | nil => intro _; simp [insertValDesc]
  | cons q l ih =>
    intro h
    rw [List.pairwise_cons] at h
    unfold insertValDesc
    by_cases hle : q.2 ≤ p.2
    · rw [if_pos hle]
      rw [List.pairwise_cons]
      constructor
      · intro b hb
        rcases List.mem_cons.1 hb with rfl | hb
        · exact hle
        · exact le_trans (h.1 b hb) hle
      · rw [List.pairwise_cons]
        exact h
    · rw [if_neg hle]
      rw [List.pairwise_cons]
      constructor
      · intro b hb
        rcases List.mem_cons.1 ((insertValDesc_perm p l).mem_iff.1 hb) with rfl | hb
        · exact le_of_lt (lt_of_not_le hle)
        · exact h.1 b hb
      · exact ih h.2

theorem sortValDesc_pairwise :
    ∀ l : AttrMap, List.Pairwise (fun a b : String × ℚ => b.2 ≤ a.2) (sortValDesc l) := by
  intro l
  induction l with
  | nil => simp [sortValDesc]
  | cons p l ih => exact insertValDesc_pairwise p (sortValDesc l) ih

theorem filter_insertValDesc (p : String × ℚ) (v : ℚ) :
    ∀ l : AttrMap, (insertValDesc p l).filter (fun q => q.2 = v) =
      if p.2 = v then p :: l.filter (fun q => q.2 = v)
      else l.filter (fun q => q.2 = v) := by
  intro l
  induction l with
  | nil =>
    by_cases h : p.2 = v
    · simp [insertValDesc, List.filter, h]
    · simp [insertValDesc, List.filter, h]
  | cons q l ih =>
    unfold insertValDesc
    by_cases hle : q.2 ≤ p.2
    · rw [if_pos hle]
      by_cases h : p.2 = v
      · simp [List.filter_cons, h]
      · simp [List.filter_cons, h]
    · rw [if_neg hle]
      by_cases h : p.2 = v
      · have hq : ¬(q.2 = v) := by
          intro hc
          exact hle (le_of_eq (by rw [hc, h]))
        simp [List.filter_cons, hq, ih, h]
      · simp [List.filter_cons, ih, h]

/-- The value-stability of the Python sort: filtering any single value class
out of the sorted list returns that class in original input order. -/
theorem sortValDesc_stable (v : ℚ) :
    ∀ l : AttrMap, (sortValDesc l).filter (fun q => q.2 = v) =
      l.filter (fun q => q.2 = v) := by
  intro l
  induction l with
  | nil => rfl
  | cons p l ih =>
    show (insertValDesc p (sortValDesc l)).filter (fun q => q.2 = v) = _
    rw [filter_insertValDesc p v (sortValDesc l), List.filter_cons]
    by_cases h : p.2 = v
    · rw [if_pos h, ih]
      simp [h]
    · rw [if_neg h, ih]
      simp [h]

/-- C8 (amended): the attribution summary is a deterministic function of the
combined dict INCLUDING its insertion order.  `sorted(…, key=value,
reverse=True)` is the stable descending-by-value sort: the sorted list is a
permutation of the entries, is descending in value, and entries of equal
value keep their insertion order — ties are broken by dict insertion order
(which varies with the hash-dependent iteration of the combiner's id set),
NOT by `touchpoint_id`.  The top-5 list of a successful summary is the first
five entries of that sort. -/
theorem summary_sort_stable (ar : AttrMap) :
    (sortValDesc ar).Perm ar ∧
    List.Pairwise (fun a b : String × ℚ => b.2 ≤ a.2) (sortValDesc ar) ∧
    (∀ v : ℚ, (sortValDesc ar).filter (fun q => q.2 = v) =
      ar.filter (fun q => q.2 = v)) ∧
    (∀ s, generate_attribution_summary ar = .ok (some s) →
      s.top_contributing_touchpoints = ((sortValDesc ar).take 5).map
        (fun p => ⟨p.1, p.2, p.2 / (ar.map (fun q => q.2)).sum * 100⟩)) := by
  refine ⟨sortValDesc_perm ar, sortValDesc_pairwise ar,
    fun v => sortValDesc_stable v ar, ?_⟩
  intro s h
  unfold generate_attribution_summary at h
  by_cases h1 : ar.isEmpty = true
  · rw [if_pos h1] at h
    exact absurd h (by simp)
  · rw [if_neg h1] at h
    dsimp only at h
    by_cases h2 : (ar.map (fun p => p.2)).sum = 0
    · rw [if_pos h2] at h
      exact absurd h (by simp)
    · rw [if_neg h2] at h
      simp only [Except.ok.injEq, Option.some.injEq] at h
      rw [← h]

/-- C8 witness: the theorem's top-5 clause applied to the concrete map
`{a: 2, b: 1}`, whose summary evaluates successfully. -/
theorem summary_sort_stable_witness :
    (AttributionSummary.mk 3 2 (3/2)
      [⟨"a", 2, 200/3⟩, ⟨"b", 1, 100/3⟩] 2 1).top_contributing_touchpoints =
    ((sortValDesc [("a", 2), ("b", 1)]).take 5).map
      (fun p => ⟨p.1, p.2, p.2 / (([("a", 2), ("b", 1)] : AttrMap).map
        (fun q => q.2)).sum * 100⟩) :=
  (summary_sort_stable [("a", 2), ("b", 1)]).2.2.2
    ⟨3, 2, 3/2, [⟨"a", 2, 200/3⟩, ⟨"b", 1, 100/3⟩], 2, 1⟩
    (by norm_num [generate_attribution_summary, sortValDesc, insertValDesc, dictOfList, dset])

/-- C8 counterexample: `[("a",1),("b",1)]` and `[("b",1),("a",1)]` are the
same key-value mapping (a permutation — two runs over the same combined map,
with different hash-dependent set-iteration orders), yet the ordered
`top_contributing_touchpoints` lists differ, and neither ordering is forced
to `touchpoint_id` order: ties follow insertion order instead. -/
theorem summary_tie_order_counterexample :
    ([("a", 1), ("b", 1)] : AttrMap).Perm [("b", 1), ("a", 1)] ∧
    (generate_attribution_summary [("a", 1), ("b", 1)]).map
        (Option.map (fun s => s.top_contributing_touchpoints.map
          (fun t => t.touchpoint_id))) ≠
      (generate_attribution_summary [("b", 1), ("a", 1)]).map
        (Option.map (fun s => s.top_contributing_touchpoints.map
          (fun t => t.touchpoint_id))) := by
  constructor
  · exact List.Perm.swap ("b", 1) ("a", 1) []
  · norm_num [generate_attribution_summary, sortValDesc, insertValDesc, dictOfList, dset,
      Except.map, Option.map]
    decide

end B2B

namespace B2B

theorem time_decay_nonneg (expw : ℤ → ℚ → ℚ) (hexp : ∀ d h, 0 < expw d h)
    (touchpoint_data : List TouchpointData) (opportunity_data : List OpportunityData)
    (hamount : ∀ o ∈ opportunity_data, 0 ≤ o.amount) :
    AttrNonneg (calculate_b2b_time_decay expw touchpoint_data opportunity_data) := by
  unfold calculate_b2b_time_decay
  apply foldl_preserve AttrNonneg _ opportunity_data []
    (by intro p hp; simp at hp)
  intro aw o ho haw
  exact nod_nonneg _ _ _ _
    (fun tp _ => le_of_lt (timeDecayWeight_pos expw hexp o tp)) (hamount o ho) haw

theorem quality_nonneg (lead_data : List LeadData) (touchpoint_data : List TouchpointData)
    (heng : ∀ tp ∈ touchpoint_data, 0 ≤ tp.engagement_score)
    (hscores : ∀ l ∈ lead_data, 0 ≤ l.lead_score ∧ 0 ≤ l.demographic_score ∧
      0 ≤ l.firmographic_score) :
    AttrNonneg (calculate_lead_quality_impact lead_data touchpoint_data) := by
  unfold calculate_lead_quality_impact
  apply foldl_preserve AttrNonneg _ touchpoint_data []
    (by intro p hp; simp at hp)
  intro aw tp htp haw
  dsimp only
  cases hl : leadLookup lead_data tp.lead_id with
  | none => exact haw
  | some lead =>
    have hlead : lead ∈ lead_data := by
      have := List.mem_of_find?_eq_some hl
      exact List.mem_reverse.1 this
    obtain ⟨h1, h2, h3⟩ := hscores lead hlead
    apply attrNonneg_dset _ _ _ haw
    apply mul_nonneg
    apply mul_nonneg
    apply mul_nonneg
    apply mul_nonneg
    · exact div_nonneg (heng tp htp) (by norm_num)
    · exact le_of_lt (lead_quality_multipliers_pos lead.lead_quality_tier)
    · rw [pymin_eq_min]
      apply le_min
      · apply div_nonneg _ (by norm_num)
        exact_mod_cast h1
      · norm_num
    · have : (0 : ℚ) ≤ (lead.demographic_score : ℚ) := by exact_mod_cast h2
      have := div_nonneg this (by norm_num : (0:ℚ) ≤ 1000)
      linarith
    · have : (0 : ℚ) ≤ (lead.firmographic_score : ℚ) := by exact_mod_cast h3
      have := div_nonneg this (by norm_num : (0:ℚ) ≤ 1000)
      linarith

theorem accountWeight_nonneg (o : OpportunityData) (tp : TouchpointData)
    (heng : 0 ≤ tp.engagement_score)
    (hcounts : 0 ≤ o.decision_makers_count ∧ 0 ≤ o.influencers_count) :
    0 ≤ accountWeight o tp := by
  unfold accountWeight
  dsimp only
  have hbase : 0 ≤ touchpoint_type_weights tp.touchpoint_type * (tp.engagement_score / 100) :=
    mul_nonneg (le_of_lt (touchpoint_type_weights_pos _)) (div_nonneg heng (by norm_num))
  have hbase2 : 0 ≤ (if tp.is_sales_touch then
      touchpoint_type_weights tp.touchpoint_type * (tp.engagement_score / 100) * (13/10)
    else if tp.is_marketing_touch then
      touchpoint_type_weights tp.touchpoint_type * (tp.engagement_score / 100) * 1
    else touchpoint_type_weights tp.touchpoint_type * (tp.engagement_score / 100)) := by
    split_ifs
    · exact mul_nonneg hbase (by norm_num)
    · exact mul_nonneg hbase (by norm_num)
    · exact hbase
  have hcf : (0 : ℚ) ≤ 1 + ((o.decision_makers_count + o.influencers_count : ℤ) : ℚ) * (1/10) := by
    have : (0 : ℚ) ≤ ((o.decision_makers_count + o.influencers_count : ℤ) : ℚ) := by
      exact_mod_cast add_nonneg hcounts.1 hcounts.2
    linarith
  exact mul_nonneg (mul_nonneg (mul_nonneg hbase2
    (le_of_lt (_calculate_account_complexity_pos o))) hcf)
    (le_of_lt (_get_deal_size_multiplier_pos o.deal_size_tier))

theorem account_nonneg (opportunity_data : List OpportunityData)
    (touchpoint_data : List TouchpointData)
    (hamount : ∀ o ∈ opportunity_data, 0 ≤ o.amount)
    (heng : ∀ tp ∈ touchpoint_data, 0 ≤ tp.engagement_score)
    (hcounts : ∀ o ∈ opportunity_data, 0 ≤ o.decision_makers_count ∧ 0 ≤ o.influencers_count) :
    AttrNonneg (calculate_account_level_attribution opportunity_data touchpoint_data) := by
  unfold calculate_account_level_attribution
  apply foldl_preserve AttrNonneg _ opportunity_data []
    (by intro p hp; simp at hp)
  intro aw o ho haw
  apply nod_nonneg _ _ _ _ _ (hamount o ho) haw
  intro tp htp
  exact accountWeight_nonneg o tp (heng tp (List.mem_of_mem_filter htp)) (hcounts o ho)

theorem stage_nonneg (touchpoint_data : List TouchpointData)
    (heng : ∀ tp ∈ touchpoint_data, 0 ≤ tp.engagement_score) :
    AttrNonneg (calculate_stage_progression_attribution touchpoint_data) := by
  unfold calculate_stage_progression_attribution
  apply foldl_preserve AttrNonneg _ touchpoint_data []
    (by intro p hp; simp at hp)
  intro aw tp htp haw
  apply attrNonneg_dset _ _ _ haw
  exact mul_nonneg (mul_nonneg (div_nonneg (heng tp htp) (by norm_num))
    (le_of_lt (stage_progression_weights_pos _)))
    (le_of_lt (touchpoint_type_weights_pos _))

theorem velocityContribution_nonneg (o : OpportunityData) (tp : TouchpointData)
    (heng : 0 ≤ tp.engagement_score) : 0 ≤ velocityContribution o tp := by
  unfold velocityContribution
  apply mul_nonneg (div_nonneg heng (by norm_num))
  split_ifs
  · exact mul_nonneg (le_of_lt (velocityBonus_pos o)) (by norm_num)
  · exact le_of_lt (velocityBonus_pos o)

theorem velocity_nonneg (opportunity_data : List OpportunityData)
    (touchpoint_data : List TouchpointData)
    (heng : ∀ tp ∈ touchpoint_data, 0 ≤ tp.engagement_score) :
    AttrNonneg (calculate_pipeline_velocity_impact opportunity_data touchpoint_data) := by
  unfold calculate_pipeline_velocity_impact
  apply foldl_preserve AttrNonneg _ opportunity_data []
    (by intro p hp; simp at hp)
  intro aw o _ haw
  unfold velocityOpp
  by_cases hl : (touchpoint_data.filter (fun tp => tp.account_id = o.account_id)).isEmpty = true
  · rw [if_pos hl]
    exact haw
  · rw [if_neg hl]
    apply foldl_preserve AttrNonneg _ _ aw haw
    intro aw' tp htp haw'
    apply attrNonneg_dset _ _ _ haw'
    exact velocityContribution_nonneg o tp (heng tp (List.mem_of_mem_filter htp))

theorem combine_nonneg (time_weighted quality_weighted account_based stage_weighted
    velocity_impact : AttrMap)
    (ht : AttrNonneg time_weighted) (hq : AttrNonneg quality_weighted)
    (ha : AttrNonneg account_based) (hs : AttrNonneg stage_weighted)
    (hv : AttrNonneg velocity_impact) :
    AttrNonneg (combine_b2b_attribution_factors time_weighted quality_weighted
      account_based stage_weighted velocity_impact none) := by
  intro p hp
  unfold combine_b2b_attribution_factors at hp
  rcases List.mem_map.1 hp with ⟨k, _, rfl⟩
  dsimp only
  simp only [Option.getD_none, defaultCombineWeights]
  have h1 := dgetD_nonneg time_weighted k ht
  have h2 := dgetD_nonneg quality_weighted k hq
  have h3 := dgetD_nonneg account_based k ha
  have h4 := dgetD_nonneg stage_weighted k hs
  have h5 := dgetD_nonneg velocity_impact k hv
  have := mul_nonneg h1 (by norm_num : (0:ℚ) ≤ 1/4)
  have := mul_nonneg h2 (by norm_num : (0:ℚ) ≤ 1/4)
  have := mul_nonneg h3 (by norm_num : (0:ℚ) ≤ 1/4)
  have := mul_nonneg h4 (by norm_num : (0:ℚ) ≤ 3/20)
  have := mul_nonneg h5 (by norm_num : (0:ℚ) ≤ 1/10)
  linarith

end B2B

namespace B2B

/-- C7: under the data-model preconditions — engagement scores in `[0, 100]`,
non-negative amounts, costs, stakeholder counts and lead scores, and a
positive decay kernel — every value in each of the five factor maps and in
the combined map of a successful `b2b_specific_attribution` run is
non-negative (and, being a rational produced by exact arithmetic, finite by
construction). -/
theorem b2b_attribution_values_nonneg (expw : ℤ → ℚ → ℚ)
    (hexp : ∀ d h, 0 < expw d h)
    (lead_data : List LeadData) (opportunity_data : List OpportunityData)
    (touchpoint_data : List TouchpointData)
    (hamount : ∀ o ∈ opportunity_data, 0 ≤ o.amount)
    (heng : ∀ tp ∈ touchpoint_data, 0 ≤ tp.engagement_score ∧ tp.engagement_score ≤ 100)
    (hcost : ∀ tp ∈ touchpoint_data, 0 ≤ tp.cost)
    (hcounts : ∀ o ∈ opportunity_data,
      0 ≤ o.decision_makers_count ∧ 0 ≤ o.influencers_count)
    (hscores : ∀ l ∈ lead_data, 0 ≤ l.lead_score ∧ 0 ≤ l.demographic_score ∧
      0 ≤ l.behavioral_score ∧ 0 ≤ l.firmographic_score)
    (r : B2BResults)
    (hr : b2b_specific_attribution expw lead_data opportunity_data touchpoint_data =
      .ok r) :
    AttrNonneg r.time_weighted_attribution ∧
    AttrNonneg r.quality_weighted_attribution ∧
    AttrNonneg r.account_based_attribution ∧
    AttrNonneg r.stage_progression_attribution ∧
    AttrNonneg r.pipeline_velocity_attribution ∧
    AttrNonneg r.combined_b2b_attribution := by
  have heng' : ∀ tp ∈ touchpoint_data, 0 ≤ tp.engagement_score :=
    fun tp htp => (heng tp htp).1
  have hscores' : ∀ l ∈ lead_data, 0 ≤ l.lead_score ∧ 0 ≤ l.demographic_score ∧
      0 ≤ l.firmographic_score :=
    fun l hl => ⟨(hscores l hl).1, (hscores l hl).2.1, (hscores l hl).2.2.2⟩
  have h1 := time_decay_nonneg expw hexp touchpoint_data opportunity_data hamount
  have h2 := quality_nonneg lead_data touchpoint_data heng' hscores'
  have h3 := account_nonneg opportunity_data touchpoint_data hamount heng' hcounts
  have h4 := stage_nonneg touchpoint_data heng'
  have h5 := velocity_nonneg opportunity_data touchpoint_data heng'
  have h6 := combine_nonneg _ _ _ _ _ h1 h2 h3 h4 h5
  unfold b2b_specific_attribution at hr
  dsimp only at hr
  cases hsum : generate_attribution_summary
      (combine_b2b_attribution_factors
        (calculate_b2b_time_decay expw touchpoint_data opportunity_data)
        (calculate_lead_quality_impact lead_data touchpoint_data)
        (calculate_account_level_attribution opportunity_data touchpoint_data)
        (calculate_stage_progression_attribution touchpoint_data)
        (calculate_pipeline_velocity_impact opportunity_data touchpoint_data) none) with
  | error e =>
    rw [hsum] at hr
    exact absurd hr (by simp)
  | ok s =>
    rw [hsum] at hr
    simp only [Except.ok.injEq] at hr
    rw [← hr]
    exact ⟨h1, h2, h3, h4, h5, h6⟩

/-- C7 witness: the theorem applied to a one-touchpoint dataset (engagement
50, cost 0, no leads or opportunities), whose run succeeds with the stage
value `0.5 × 0.8 × 0.6 = 0.24` and combined value `0.24 × 0.15 = 0.036`. -/
theorem b2b_attribution_values_nonneg_witness :
    AttrNonneg (B2BResults.mk [] [] [] [("t1", 6/25)] [] [("t1", 9/250)]
      (some ⟨9/250, 1, 9/250, [⟨"t1", 9/250, 100⟩], 9/250, 9/250⟩)).time_weighted_attribution ∧
    AttrNonneg (B2BResults.mk [] [] [] [("t1", 6/25)] [] [("t1", 9/250)]
      (some ⟨9/250, 1, 9/250, [⟨"t1", 9/250, 100⟩], 9/250, 9/250⟩)).quality_weighted_attribution ∧
    AttrNonneg (B2BResults.mk [] [] [] [("t1", 6/25)] [] [("t1", 9/250)]
      (some ⟨9/250, 1, 9/250, [⟨"t1", 9/250, 100⟩], 9/250, 9/250⟩)).account_based_attribution ∧
    AttrNonneg (B2BResults.mk [] [] [] [("t1", 6/25)] [] [("t1", 9/250)]
      (some ⟨9/250, 1, 9/250, [⟨"t1", 9/250, 100⟩], 9/250, 9/250⟩)).stage_progression_attribution ∧
    AttrNonneg (B2BResults.mk [] [] [] [("t1", 6/25)] [] [("t1", 9/250)]
      (some ⟨9/250, 1, 9/250, [⟨"t1", 9/250, 100⟩], 9/250, 9/250⟩)).pipeline_velocity_attribution ∧
    AttrNonneg (B2BResults.mk [] [] [] [("t1", 6/25)] [] [("t1", 9/250)]
      (some ⟨9/250, 1, 9/250, [⟨"t1", 9/250, 100⟩], 9/250, 9/250⟩)).combined_b2b_attribution :=
  b2b_attribution_values_nonneg (fun _ _ => 1) (fun _ _ => one_pos) [] []
    [⟨"t1", "l1", "A", 0, .website_visit, "web", none, none, 50, .awareness, 0,
      false, true, none⟩]
    (by simp) (by norm_num) (by norm_num) (by simp) (by simp)
    (B2BResults.mk [] [] [] [("t1", 6/25)] [] [("t1", 9/250)]
      (some ⟨9/250, 1, 9/250, [⟨"t1", 9/250, 100⟩], 9/250, 9/250⟩))
    (by norm_num +decide [b2b_specific_attribution, calculate_b2b_time_decay,
      timeDecayOpp, normalizedOppDistribute, calculate_lead_quality_impact, leadLookup,
      calculate_account_level_attribution, accountOpp,
      calculate_stage_progression_attribution, calculate_pipeline_velocity_impact,
      velocityOpp, combine_b2b_attribution_factors, defaultCombineWeights, unionKeys,
      generate_attribution_summary, sortValDesc, insertValDesc, dictOfList, dset, dget,
      dgetD, stage_progression_weights, touchpoint_type_weights, pymax, pymaxI])

end B2B
